import Mathlib

/-
Verification development for the WinAudioLEDReact audio pipeline.

Shallow embedding conventions:
* 32-bit float arithmetic is modelled as exact rational arithmetic (ℚ); the
  spec itself declares bit-exact float reproduction a non-goal, and every claim
  below is about algorithmic structure, not rounding.
* C++ `int(...)` casts of non-negative float expressions are modelled as
  `Int.floor` (truncation toward zero equals floor on non-negative values).
* Stateful member functions are modelled as explicit state-passing functions;
  emitted Qt signals become explicit outputs (event logs / returned flags).
-/

namespace WinAudioLED

/-! ## AudioProcessor: initialization state machine (AudioProcessor.h / .cpp)

`setSampleRate` stores the new rate and sets `_initialized := false`
("Force re-initialization").  `ensureInit` however returns as soon as `_cfg`
is non-null, and `ensureLayout32` returns as soon as the 32-band tables
already have size 32; neither reads `_initialized`.  `layoutSr` below records
which sample rate the band-to-bin tables were built for. -/

structure APLife where
  sr : ℕ
  cfg : Bool
  initializedFlag : Bool
  layoutSr : Option ℕ
  deriving Repr, DecidableEq

/-- `AudioProcessor::setSampleRate` (AudioProcessor.h): store rate, clear the
`_initialized` flag when the rate changed. -/
def apSetSampleRate (s : APLife) (r : ℕ) : APLife :=
  if r ≠ s.sr then { s with sr := r, initializedFlag := false } else s

/-- `AudioProcessor::ensureLayout32`: early-returns when `_kLo32`/`_kHi32`
already have size 32, otherwise builds the tables from the current `_sr`. -/
def apEnsureLayout32 (s : APLife) : APLife :=
  if s.layoutSr.isSome then s else { s with layoutSr := some s.sr }

/-- `AudioProcessor::ensureInit`: early-returns when `_cfg` is non-null,
otherwise allocates the plan and calls `ensureLayout32`. -/
def apEnsureInit (s : APLife) : APLife :=
  if s.cfg then s else apEnsureLayout32 { s with cfg := true }

/-- `AudioProcessor::start()`: `_cfg = nullptr` forces re-init; `_sr` keeps the
default 48000. -/
def apStartLife : APLife :=
  { sr := 48000, cfg := false, initializedFlag := false, layoutSr := none }

/-- C1. The code violates the claim: after a first processed frame at 48000 Hz
(`ensureInit` built all tables), a mid-session `setSampleRate 44100` sets the
dead `_initialized` flag but the next processing pass (`ensureInit`) returns
early on `_cfg` and `ensureLayout32` returns early on table size, so the next
band vector is still computed from the band-to-bin tables built for 48000 Hz,
while `_sr` is already 44100. -/
theorem C1_staleLayout :
    (apEnsureInit (apSetSampleRate (apEnsureInit apStartLife) 44100)).sr = 44100 ∧
    (apEnsureInit (apSetSampleRate (apEnsureInit apStartLife) 44100)).layoutSr = some 48000 ∧
    (apEnsureInit (apSetSampleRate (apEnsureInit apStartLife) 44100)).initializedFlag = false ∧
    (apEnsureInit (apSetSampleRate (apEnsureInit apStartLife) 44100)).cfg = true := by
  decide

/-! ## DC removal (C2)

The repository holds two DC-removal implementations:
* `AdvancedAudioProcessor::applyDCRemoval` subtracts the frame's arithmetic
  mean ("Simple DC removal: subtract the mean") for all four resolutions;
* the current `AudioProcessor` (src/unnamed/part_009) applies the one-pole DC
  blocker `applyDCBlocker` — `y = x - xPrev + _dcBlockerCoeff * yPrev`, per
  channel with persistent `xPrev`/`yPrev` state — in `processOneFrameStereo`
  step 1.5, BEFORE the Hann window of step 2; `computeDCBlockerCoeff` sets
  `_dcBlockerCoeff = 1 - 2π·fc/fs` with `fc = 20` Hz, clamped to
  `[0.9, 0.999]`. -/

/-- `AdvancedAudioProcessor::applyDCRemoval`: "Simple DC removal: subtract the
mean" — every sample of the frame has the frame's arithmetic mean subtracted. -/
def applyDCRemoval (frame : List ℚ) : List ℚ :=
  let mean := frame.sum / (frame.length : ℚ)
  frame.map (fun sample => sample - mean)

/-- `AudioProcessor::applyDCBlocker` (src/unnamed/part_009): the per-sample
loop `y = x - xPrev + c * yPrev; xPrev = x; yPrev = y; frame[i] = y`, with the
loop's local `y` written inline. -/
def applyDCBlocker (c xPrev yPrev : ℚ) : List ℚ → List ℚ
  | [] => []
  | x :: rest =>
    (x - xPrev + c * yPrev) :: applyDCBlocker c x (x - xPrev + c * yPrev) rest

/-- `AudioProcessor::computeDCBlockerCoeff` (src/unnamed/part_009):
`1 - 2π·fc/fs` with `fc = 20` Hz, clamped to `[0.9, 0.999]`
(`std::clamp(v, lo, hi) = max lo (min v hi)`); π makes this noncomputable. -/
noncomputable def dcBlockerCoeff (fs : ℝ) : ℝ :=
  max (9 / 10) (min (1 - 2 * Real.pi * 20 / fs) (999 / 1000))

lemma sum_map_sub_const (l : List ℚ) (m : ℚ) :
    (l.map (fun s => s - m)).sum = l.sum - l.length * m := by
  induction l with
  | nil => simp
  | cons x t ih =>
    simp only [List.map_cons, List.sum_cons, ih, List.length_cons]
    push_cast
    ring

lemma applyDCRemoval_concrete :
    applyDCRemoval [1, 0, 0, 0] = [3/4, -1/4, -1/4, -1/4] := by
  norm_num [applyDCRemoval]

/-- C2 counterexample. On the concrete frame `[1, 0, 0, 0]` the mean
subtraction performed by `AdvancedAudioProcessor::applyDCRemoval` (the DC
removal of every multi-resolution analysis frame) does not agree with
`AudioProcessor::applyDCBlocker` for any coefficient `c ≤ 0.999` and any
filter history: matching the last three outputs would force `c = 1`, which the
clamp `[0.9, 0.999]` excludes — so the claim's "every resolution" fails. -/
theorem C2_counterexample :
    ¬ ∃ c xPrev yPrev : ℚ, c ≤ 999/1000 ∧
      applyDCBlocker c xPrev yPrev [1, 0, 0, 0] = applyDCRemoval [1, 0, 0, 0] := by
  rintro ⟨c, xPrev, yPrev, hc, h⟩
  rw [applyDCRemoval_concrete] at h
  simp only [applyDCBlocker, List.cons.injEq, and_true] at h
  obtain ⟨-, h1, h2, -⟩ := h
  -- h1 : second output = -1/4, h2 : third output = -1/4, third = c * second
  nlinarith [h1, h2]

lemma applyDCBlocker_rec (c : ℚ) (xs : List ℚ) :
    ∀ (xPrev yPrev : ℚ) (n : ℕ) (x0 x1 y0 : ℚ),
      xs[n]? = some x0 → xs[n + 1]? = some x1 →
      (applyDCBlocker c xPrev yPrev xs)[n]? = some y0 →
      (applyDCBlocker c xPrev yPrev xs)[n + 1]? = some (x1 - x0 + c * y0) := by
  induction xs with
  | nil =>
    intro xPrev yPrev n x0 x1 y0 h0 _ _
    simp at h0
  | cons x rest ih =>
    intro xPrev yPrev n x0 x1 y0 h0 h1 hy0
    match n with
    | 0 =>
      simp only [List.getElem?_cons_zero, Option.some.injEq] at h0
      simp only [applyDCBlocker, List.getElem?_cons_zero, Option.some.injEq] at hy0
      match rest, h1 with
      | x' :: rest', h1 =>
        simp only [List.getElem?_cons_succ, List.getElem?_cons_zero, Option.some.injEq] at h1
        simp only [applyDCBlocker, List.getElem?_cons_succ, List.getElem?_cons_zero,
          Option.some.injEq]
        rw [← h0, ← h1, ← hy0]
    | n + 1 =>
      simp only [List.getElem?_cons_succ] at h0 h1 hy0 ⊢
      simp only [applyDCBlocker, List.getElem?_cons_succ] at hy0 ⊢
      exact ih x (x - xPrev + c * yPrev) n x0 x1 y0 h0 h1 hy0

lemma applyDCBlocker_const (c a : ℚ) (n : ℕ) :
    ∀ yPrev : ℚ,
      applyDCBlocker c a yPrev (List.replicate n a)
        = (List.range n).map (fun j => c ^ (j + 1) * yPrev) := by
  induction n with
  | zero => intro yPrev; simp [applyDCBlocker]
  | succ n ihn =>
    intro yPrev
    rw [List.replicate_succ]
    simp only [applyDCBlocker]
    rw [ihn, List.range_succ_eq_map, List.map_cons, List.map_map]
    congr 1
    · ring
    · apply List.map_congr_left
      intro j hj
      simp only [Function.comp_apply, Nat.succ_eq_add_one]
      ring

set_option maxHeartbeats 800000 in
/-- C2 amended. The spec's one-pole DC blocker is implemented by the current
`AudioProcessor` (src/unnamed/part_009), applied to each channel's frame
before the Hann window: (1) its coefficient at the 48000 Hz default is exactly
`1 - 2π·20/48000` and lies inside the clamp range `[0.9, 0.999]`; (2) the
filter's output satisfies precisely the claimed recurrence
`y[n] = x[n] - x[n-1] + c·y[n-1]`; (3) on a constant (DC) input with settled
input history the output is the geometric transient `c^(n+1)·yPrev`,
independent of the DC level — the DC is removed. (4) The multi-resolution
`AdvancedAudioProcessor`, by contrast, removes DC by subtracting the frame's
arithmetic mean (its output always sums to zero), which the counterexample
shows no clamped one-pole coefficient reproduces. -/
theorem C2_dcBlocker :
    (dcBlockerCoeff 48000 = 1 - 2 * Real.pi * 20 / 48000 ∧
      (9 / 10 : ℝ) ≤ dcBlockerCoeff 48000 ∧ dcBlockerCoeff 48000 ≤ 999 / 1000) ∧
    (∀ (c xPrev yPrev : ℚ) (xs : List ℚ) (n : ℕ) (x0 x1 y0 : ℚ),
      xs[n]? = some x0 → xs[n + 1]? = some x1 →
      (applyDCBlocker c xPrev yPrev xs)[n]? = some y0 →
      (applyDCBlocker c xPrev yPrev xs)[n + 1]? = some (x1 - x0 + c * y0)) ∧
    (∀ (c a yPrev : ℚ) (n : ℕ),
      applyDCBlocker c a yPrev (List.replicate n a)
        = (List.range n).map (fun j => c ^ (j + 1) * yPrev)) ∧
    (∀ frame : List ℚ, frame.length ≠ 0 → (applyDCRemoval frame).sum = 0) := by
  refine ⟨?_, ?_, ?_, ?_⟩
  · have hpi1 : (3 : ℝ) < Real.pi := Real.pi_gt_three
    have hpi2 : Real.pi < 3.15 := Real.pi_lt_315
    have hv1 : (9 / 10 : ℝ) ≤ 1 - 2 * Real.pi * 20 / 48000 := by nlinarith
    have hv2 : (1 - 2 * Real.pi * 20 / 48000 : ℝ) ≤ 999 / 1000 := by nlinarith
    have he : dcBlockerCoeff 48000 = 1 - 2 * Real.pi * 20 / 48000 := by
      unfold dcBlockerCoeff
      rw [min_eq_left hv2, max_eq_right hv1]
    exact ⟨he, he ▸ hv1, he ▸ hv2⟩
  · intro c xPrev yPrev xs n x0 x1 y0 h0 h1 hy0
    exact applyDCBlocker_rec c xs xPrev yPrev n x0 x1 y0 h0 h1 hy0
  · intro c a yPrev n
    exact applyDCBlocker_const c a n yPrev
  · intro frame h
    have hlen : (frame.length : ℚ) ≠ 0 := by exact_mod_cast h
    simp only [applyDCRemoval, sum_map_sub_const]
    field_simp

/-- C2 witness: the recurrence and the mean-subtraction conjunct at concrete
inputs. -/
theorem C2_dcBlocker_witness :
    (applyDCBlocker 1 0 0 [1, 2, 5])[0 + 1]?
      = some (2 - 1 + 1 * (1 - 0 + 1 * 0)) ∧
    (applyDCRemoval [1, 0]).sum = 0 :=
  ⟨C2_dcBlocker.2.1 1 0 0 [1, 2, 5] 0 1 2 (1 - 0 + 1 * 0) rfl rfl rfl,
   C2_dcBlocker.2.2.2 [1, 0] (by decide)⟩

/-! ## stop() idempotence (AudioCapture, AudioProcessor, AdvancedAudioProcessor)

Each `requestStop` is modelled as `state → state × released`, where `released`
lists the resources freed by that call. -/

structure CaptureState where
  running : Bool
  dev : Bool
  ctx : Bool
  deriving Repr, DecidableEq

/-- `AudioCapture::requestStop`: `_running.exchange(false)`; when it was
already false, return immediately (only re-emitting `stopped`), otherwise stop
and uninit the device and the context. -/
def captureRequestStop (s : CaptureState) : CaptureState × List String :=
  if s.running then
    ({ running := false, dev := false, ctx := false },
      (if s.dev then ["device"] else []) ++ (if s.ctx then ["context"] else []))
  else (s, [])

structure ProcStopState where
  stopFlag : Bool
  cfg : Bool
  fifoL : List ℚ
  fifoR : List ℚ
  window : List ℚ
  deriving Repr, DecidableEq

/-- `AudioProcessor::requestStop`: set `_stop`, free the FFT plan when
allocated, clear both FIFOs; other members (window, ...) are untouched. -/
def procRequestStop (s : ProcStopState) : ProcStopState × List String :=
  ({ s with stopFlag := true, cfg := false, fifoL := [], fifoR := [] },
    if s.cfg then ["fft plan"] else [])

structure AdvStopState where
  stopFlag : Bool
  harmonicCfg : Bool
  bassCfg : Bool
  percCfg : Bool
  macroCfg : Bool
  fifoL : List ℚ
  fifoR : List ℚ
  deriving Repr, DecidableEq

/-- `AdvancedAudioProcessor::requestStop`: set `_stop`, `cleanup()` frees each
allocated FFT plan, clear both FIFOs. -/
def advRequestStop (s : AdvStopState) : AdvStopState × List String :=
  ({ s with stopFlag := true, harmonicCfg := false, bassCfg := false,
            percCfg := false, macroCfg := false, fifoL := [], fifoR := [] },
    (if s.harmonicCfg then ["harmonic plan"] else []) ++
    (if s.bassCfg then ["bass plan"] else []) ++
    (if s.percCfg then ["perc plan"] else []) ++
    (if s.macroCfg then ["macro plan"] else []))

/-- C9. For each component, calling the stop operation twice from any state
yields exactly the state of calling it once, and the second call releases no
resources. -/
theorem C9_stopIdempotent :
    ∀ (c : CaptureState) (p : ProcStopState) (a : AdvStopState),
      captureRequestStop (captureRequestStop c).1 = ((captureRequestStop c).1, []) ∧
      procRequestStop (procRequestStop p).1 = ((procRequestStop p).1, []) ∧
      advRequestStop (advRequestStop a).1 = ((advRequestStop a).1, []) := by
  intro c p a
  refine ⟨?_, ?_, ?_⟩
  · by_cases h : c.running <;> simp [captureRequestStop, h]
  · simp [procRequestStop]
  · simp [advRequestStop]

/-! ## Band-to-bin mappings (C3)

`setupBassFrequencyMapping` and `setupPercussiveFrequencyMapping` from
AdvancedAudioProcessor.cpp, and `ensureLayout32` from AudioProcessor.cpp.
All frequency edges of the first two are exact rationals, so the float
computations are embedded exactly; `ensureLayout32`'s edges come from
`std::pow` and are kept as an abstract edge function bounded by
`[fMin, fMax] = [20, 18000]`. -/

/-- Percussive band edges `{0, 200, 500, 1000, 2000, 4000, 8000, 12000, 20000}`. -/
def percEdge : ℕ → ℚ
  | 0 => 0
  | 1 => 200
  | 2 => 500
  | 3 => 1000
  | 4 => 2000
  | 5 => 4000
  | 6 => 8000
  | 7 => 12000
  | _ => 20000

/-- One percussive band: `_percKLo[i] = max(1, int(f0*_percN/_sr))`,
`_percKHi[i] = min(_percN/2, int(f1*_percN/_sr))` with `_percN = 256`. -/
def percKpair (sr : ℚ) (i : ℕ) : ℤ × ℤ :=
  (max 1 (Int.floor (percEdge i * 256 / sr)),
   min (256 / 2) (Int.floor (percEdge (i + 1) * 256 / sr)))

/-- `setupPercussiveFrequencyMapping`: the 8 percussive bands. -/
def percMapping (sr : ℚ) : List (ℤ × ℤ) :=
  (List.range 8).map (percKpair sr)

/-- Bass band edge `i`: `fMin + i * fStep` with `fMin = 20`,
`fStep = (400 - 20) / 16 = 95/4`. -/
def bassF (i : ℕ) : ℚ := 20 + i * (95 / 4)

/-- One bass band: `_bassKLo[i] = max(1, int(f0*_bassN/_sr))`,
`_bassKHi[i] = min(_bassN/2, int(f1*_bassN/_sr))` with `_bassN = 4096`. -/
def bassKpair (sr : ℚ) (i : ℕ) : ℤ × ℤ :=
  (max 1 (Int.floor (bassF i * 4096 / sr)),
   min (4096 / 2) (Int.floor (bassF (i + 1) * 4096 / sr)))

/-- `setupBassFrequencyMapping`: the 16 bass bands. -/
def bassMapping (sr : ℚ) : List (ℤ × ℤ) :=
  (List.range 16).map (bassKpair sr)

/-- `std::clamp(v, lo, hi)` on integers. -/
def clampZ (v lo hi : ℤ) : ℤ := max lo (min v hi)

/-- `ensureLayout32`'s `hzToK` lambda: `clamp(floor(f*_N/_sr), 1, max(2, _N/2))`
with `_N = 1024`. -/
def hzToK32 (sr f : ℚ) : ℤ :=
  clampZ (Int.floor (f * 1024 / sr)) 1 (max 2 (1024 / 2))

/-- One band of `ensureLayout32`, including the non-degeneracy repair
`if (k1 <= k0) k1 = min(k0 + 1, _N/2)`. -/
def layout32Band (sr e0 e1 : ℚ) : ℤ × ℤ :=
  let k0 := hzToK32 sr e0
  let k1 := hzToK32 sr e1
  if k1 ≤ k0 then (k0, min (k0 + 1) (1024 / 2)) else (k0, k1)

/-- `ensureLayout32`: 32 bands over log-spaced edges (the edges themselves come
from `std::pow` and are passed in as a function). -/
def layout32 (sr : ℚ) (edges : ℕ → ℚ) : List (ℤ × ℤ) :=
  (List.range 32).map (fun i => layout32Band sr (edges i) (edges (i + 1)))

/-- The claim's validity property for one band: `1 ≤ lo`, `lo < hi`,
`hi ≤ N/2`. -/
def bandValidStrict (halfN : ℤ) (p : ℤ × ℤ) : Prop :=
  1 ≤ p.1 ∧ p.1 < p.2 ∧ p.2 ≤ halfN

/-- The weakened validity property: `1 ≤ lo`, `lo ≤ hi`, `hi ≤ N/2`. -/
def bandValidWeak (halfN : ℤ) (p : ℤ × ℤ) : Prop :=
  1 ≤ p.1 ∧ p.1 ≤ p.2 ∧ p.2 ≤ halfN

instance (halfN : ℤ) (p : ℤ × ℤ) : Decidable (bandValidStrict halfN p) := by
  unfold bandValidStrict; infer_instance

instance (halfN : ℤ) (p : ℤ × ℤ) : Decidable (bandValidWeak halfN p) := by
  unfold bandValidWeak; infer_instance

lemma percMapping_concrete :
    percMapping 48000 =
      [(1, 1), (1, 2), (2, 5), (5, 10), (10, 21), (21, 42), (42, 64), (64, 106)] := by
  norm_num [percMapping, percKpair, percEdge, List.range_succ]

/-- C3 counterexample. At the configured 48000 Hz rate, band 0 of the
percussive mapping is `[1, 1)`: `lo = hi = 1`, violating `lo < hi` (the band is
empty — it can never accumulate any magnitude). -/
theorem C3_counterexample :
    ¬ ∀ p ∈ percMapping 48000, bandValidStrict (256 / 2) p := by
  rw [percMapping_concrete]
  intro h
  have := h (1, 1) (by simp)
  simp [bandValidStrict] at this

lemma hzToK32_bounds (f : ℚ) (h18k : f ≤ 18000) :
    1 ≤ hzToK32 48000 f ∧ hzToK32 48000 f ≤ 384 := by
  have hfl : Int.floor (f * 1024 / 48000) ≤ 384 := by
    have hle : f * 1024 / 48000 ≤ (384 : ℚ) := by
      rw [div_le_iff₀ (by norm_num)]
      nlinarith
    calc Int.floor (f * 1024 / 48000) ≤ Int.floor ((384 : ℚ)) := Int.floor_le_floor hle
    _ = 384 := by norm_num
  unfold hzToK32 clampZ
  omega

/-! ### Harmonic and macro mappings (log-spaced, `std::pow` edges)

`setupHarmonicFrequencyMapping`: 32 log-spaced bands over 80 Hz – 18 kHz with
`_harmonicN = 1024`; `setupMacroFrequencyMapping`: 12 log-spaced bands over
50 Hz – 16 kHz with `_macroN = 8192`.  Their edges `fMin * pow(ratio, i/count)`
are transcendental, so they are embedded over ℝ with `Real.rpow`
(noncomputable); each floor value at 48000 Hz is then pinned by exact rational
power bounds. -/

/-- One edge of `setupHarmonicFrequencyMapping`:
`fMin * pow(fMax/fMin, i/32)` with `fMin = 80`, `fMax = 18000`. -/
noncomputable def harmonicEdge (i : ℕ) : ℝ := 80 * (18000 / 80 : ℝ) ^ ((i : ℝ) / 32)

/-- One harmonic band: `_harmonicKLo[i] = max(1, int(f0*_harmonicN/_sr))`,
`_harmonicKHi[i] = min(_harmonicN/2, int(f1*_harmonicN/_sr))`,
`_harmonicN = 1024`. -/
noncomputable def harmonicKpair (sr f0 f1 : ℝ) : ℤ × ℤ :=
  (max 1 (Int.floor (f0 * 1024 / sr)), min (1024 / 2) (Int.floor (f1 * 1024 / sr)))

/-- `setupHarmonicFrequencyMapping`: the 32 harmonic bands at 48000 Hz. -/
noncomputable def harmonicMapping : List (ℤ × ℤ) :=
  (List.range 32).map (fun i => harmonicKpair 48000 (harmonicEdge i) (harmonicEdge (i + 1)))

/-- One edge of `setupMacroFrequencyMapping`:
`fMin * pow(fMax/fMin, i/12)` with `fMin = 50`, `fMax = 16000`. -/
noncomputable def macroEdge (i : ℕ) : ℝ := 50 * (16000 / 50 : ℝ) ^ ((i : ℝ) / 12)

/-- One macro band: `_macroKLo[i] = max(1, int(f0*_macroN/_sr))`,
`_macroKHi[i] = min(_macroN/2, int(f1*_macroN/_sr))`, `_macroN = 8192`. -/
noncomputable def macroKpair (sr f0 f1 : ℝ) : ℤ × ℤ :=
  (max 1 (Int.floor (f0 * 8192 / sr)), min (8192 / 2) (Int.floor (f1 * 8192 / sr)))

/-- `setupMacroFrequencyMapping`: the 12 macro bands at 48000 Hz. -/
noncomputable def macroMapping : List (ℤ × ℤ) :=
  (List.range 12).map (fun i => macroKpair 48000 (macroEdge i) (macroEdge (i + 1)))

lemma harmonicEdgeFloor (i k : ℕ)
    (hlo : ((75 * (k : ℝ)) / 128) ^ (32 : ℕ) ≤ (225 : ℝ) ^ i)
    (hhi : (225 : ℝ) ^ i < ((75 * ((k : ℝ) + 1)) / 128) ^ (32 : ℕ)) :
    Int.floor (harmonicEdge i * 1024 / 48000) = (k : ℤ) := by
  have hx : (0:ℝ) < (225 : ℝ) ^ ((i : ℝ) / 32) := Real.rpow_pos_of_pos (by norm_num) _
  have hpow : ((225 : ℝ) ^ ((i : ℝ) / 32)) ^ (32 : ℕ) = (225 : ℝ) ^ i := by
    rw [← Real.rpow_natCast ((225 : ℝ) ^ ((i : ℝ) / 32)) 32,
      ← Real.rpow_mul (by norm_num : (0:ℝ) ≤ 225)]
    rw [show (i : ℝ) / 32 * ((32 : ℕ) : ℝ) = ((i : ℕ) : ℝ) by push_cast; ring]
    rw [Real.rpow_natCast]
  have hxlo : (75 * (k : ℝ)) / 128 ≤ (225 : ℝ) ^ ((i : ℝ) / 32) := by
    have h3 : ((75 * (k : ℝ)) / 128) ^ (32 : ℕ)
        ≤ ((225 : ℝ) ^ ((i : ℝ) / 32)) ^ (32 : ℕ) := by
      rw [hpow]; exact hlo
    exact le_of_pow_le_pow_left₀ (by norm_num) (le_of_lt hx) h3
  have hxhi : (225 : ℝ) ^ ((i : ℝ) / 32) < (75 * ((k : ℝ) + 1)) / 128 := by
    have h3 : ((225 : ℝ) ^ ((i : ℝ) / 32)) ^ (32 : ℕ)
        < ((75 * ((k : ℝ) + 1)) / 128) ^ (32 : ℕ) := by
      rw [hpow]; exact hhi
    exact lt_of_pow_lt_pow_left₀ 32 (by positivity) h3
  have hedge : harmonicEdge i * 1024 / 48000 = (128 / 75 : ℝ) * (225 : ℝ) ^ ((i : ℝ) / 32) := by
    unfold harmonicEdge
    rw [show (18000 / 80 : ℝ) = 225 by norm_num]
    ring
  rw [hedge, Int.floor_eq_iff]
  constructor
  · have h2 := mul_le_mul_of_nonneg_left hxlo (by norm_num : (0:ℝ) ≤ 128 / 75)
    push_cast
    linarith
  · have h2 := mul_lt_mul_of_pos_left hxhi (by norm_num : (0:ℝ) < 128 / 75)
    push_cast
    linarith

lemma macroEdgeFloor (i k : ℕ)
    (hlo : ((15 * (k : ℝ)) / 128) ^ (12 : ℕ) ≤ (320 : ℝ) ^ i)
    (hhi : (320 : ℝ) ^ i < ((15 * ((k : ℝ) + 1)) / 128) ^ (12 : ℕ)) :
    Int.floor (macroEdge i * 8192 / 48000) = (k : ℤ) := by
  have hx : (0:ℝ) < (320 : ℝ) ^ ((i : ℝ) / 12) := Real.rpow_pos_of_pos (by norm_num) _
  have hpow : ((320 : ℝ) ^ ((i : ℝ) / 12)) ^ (12 : ℕ) = (320 : ℝ) ^ i := by
    rw [← Real.rpow_natCast ((320 : ℝ) ^ ((i : ℝ) / 12)) 12,
      ← Real.rpow_mul (by norm_num : (0:ℝ) ≤ 320)]
    rw [show (i : ℝ) / 12 * ((12 : ℕ) : ℝ) = ((i : ℕ) : ℝ) by push_cast; ring]
    rw [Real.rpow_natCast]
  have hxlo : (15 * (k : ℝ)) / 128 ≤ (320 : ℝ) ^ ((i : ℝ) / 12) := by
    have h3 : ((15 * (k : ℝ)) / 128) ^ (12 : ℕ)
        ≤ ((320 : ℝ) ^ ((i : ℝ) / 12)) ^ (12 : ℕ) := by
      rw [hpow]; exact hlo
    exact le_of_pow_le_pow_left₀ (by norm_num) (le_of_lt hx) h3
  have hxhi : (320 : ℝ) ^ ((i : ℝ) / 12) < (15 * ((k : ℝ) + 1)) / 128 := by
    have h3 : ((320 : ℝ) ^ ((i : ℝ) / 12)) ^ (12 : ℕ)
        < ((15 * ((k : ℝ) + 1)) / 128) ^ (12 : ℕ) := by
      rw [hpow]; exact hhi
    exact lt_of_pow_lt_pow_left₀ 12 (by positivity) h3
  have hedge : macroEdge i * 8192 / 48000 = (128 / 15 : ℝ) * (320 : ℝ) ^ ((i : ℝ) / 12) := by
    unfold macroEdge
    rw [show (16000 / 50 : ℝ) = 320 by norm_num]
    ring
  rw [hedge, Int.floor_eq_iff]
  constructor
  · have h2 := mul_le_mul_of_nonneg_left hxlo (by norm_num : (0:ℝ) ≤ 128 / 15)
    push_cast
    linarith
  · have h2 := mul_lt_mul_of_pos_left hxhi (by norm_num : (0:ℝ) < 128 / 15)
    push_cast
    linarith

/-- The 32 harmonic band bin ranges at 48000 Hz (bands 1, 2 and 4 are
degenerate: `lo = hi`, empty). -/
def harmonicPairs : List (ℤ × ℤ) :=


  [(1, 2), (2, 2), (2, 2), (2, 3), (3, 3), (3, 4), (4, 5), (5, 6), (6, 7), (7, 9), (9, 10), (10, 13), (13, 15), (15, 18), (18, 21), (21, 25), (25, 30), (30, 35), (35, 42), (42, 50), (50, 59), (59, 70), (70, 83), (83, 99), (99, 117), (117, 139), (139, 164), (164, 195), (195, 231), (231, 273), (273, 324), (324, 384)]


/-- The 12 macro band bin ranges at 48000 Hz (all strict). -/
def macroPairs : List (ℤ × ℤ) :=


  [(8, 13), (13, 22), (22, 36), (36, 58), (58, 94), (94, 152), (152, 246), (246, 399), (399, 645), (645, 1044), (1044, 1688), (1688, 2730)]


lemma harmonicMapping_concrete : harmonicMapping = harmonicPairs := by
  have h0 : Int.floor (harmonicEdge 0 * 1024 / 48000) = ((1 : ℕ) : ℤ) :=
    harmonicEdgeFloor 0 1 (by norm_num) (by norm_num)
  have h1 : Int.floor (harmonicEdge 1 * 1024 / 48000) = ((2 : ℕ) : ℤ) :=
    harmonicEdgeFloor 1 2 (by norm_num) (by norm_num)
  have h2 : Int.floor (harmonicEdge 2 * 1024 / 48000) = ((2 : ℕ) : ℤ) :=
    harmonicEdgeFloor 2 2 (by norm_num) (by norm_num)
  have h3 : Int.floor (harmonicEdge 3 * 1024 / 48000) = ((2 : ℕ) : ℤ) :=
    harmonicEdgeFloor 3 2 (by norm_num) (by norm_num)
  have h4 : Int.floor (harmonicEdge 4 * 1024 / 48000) = ((3 : ℕ) : ℤ) :=
    harmonicEdgeFloor 4 3 (by norm_num) (by norm_num)
  have h5 : Int.floor (harmonicEdge 5 * 1024 / 48000) = ((3 : ℕ) : ℤ) :=
    harmonicEdgeFloor 5 3 (by norm_num) (by norm_num)
  have h6 : Int.floor (harmonicEdge 6 * 1024 / 48000) = ((4 : ℕ) : ℤ) :=
    harmonicEdgeFloor 6 4 (by norm_num) (by norm_num)
  have h7 : Int.floor (harmonicEdge 7 * 1024 / 48000) = ((5 : ℕ) : ℤ) :=
    harmonicEdgeFloor 7 5 (by norm_num) (by norm_num)
  have h8 : Int.floor (harmonicEdge 8 * 1024 / 48000) = ((6 : ℕ) : ℤ) :=
    harmonicEdgeFloor 8 6 (by norm_num) (by norm_num)
  have h9 : Int.floor (harmonicEdge 9 * 1024 / 48000) = ((7 : ℕ) : ℤ) :=
    harmonicEdgeFloor 9 7 (by norm_num) (by norm_num)
  have h10 : Int.floor (harmonicEdge 10 * 1024 / 48000) = ((9 : ℕ) : ℤ) :=
    harmonicEdgeFloor 10 9 (by norm_num) (by norm_num)
  have h11 : Int.floor (harmonicEdge 11 * 1024 / 48000) = ((10 : ℕ) : ℤ) :=
    harmonicEdgeFloor 11 10 (by norm_num) (by norm_num)
  have h12 : Int.floor (harmonicEdge 12 * 1024 / 48000) = ((13 : ℕ) : ℤ) :=
    harmonicEdgeFloor 12 13 (by norm_num) (by norm_num)
  have h13 : Int.floor (harmonicEdge 13 * 1024 / 48000) = ((15 : ℕ) : ℤ) :=
    harmonicEdgeFloor 13 15 (by norm_num) (by norm_num)
  have h14 : Int.floor (harmonicEdge 14 * 1024 / 48000) = ((18 : ℕ) : ℤ) :=
    harmonicEdgeFloor 14 18 (by norm_num) (by norm_num)
  have h15 : Int.floor (harmonicEdge 15 * 1024 / 48000) = ((21 : ℕ) : ℤ) :=
    harmonicEdgeFloor 15 21 (by norm_num) (by norm_num)
  have h16 : Int.floor (harmonicEdge 16 * 1024 / 48000) = ((25 : ℕ) : ℤ) :=
    harmonicEdgeFloor 16 25 (by norm_num) (by norm_num)
  have h17 : Int.floor (harmonicEdge 17 * 1024 / 48000) = ((30 : ℕ) : ℤ) :=
    harmonicEdgeFloor 17 30 (by norm_num) (by norm_num)
  have h18 : Int.floor (harmonicEdge 18 * 1024 / 48000) = ((35 : ℕ) : ℤ) :=
    harmonicEdgeFloor 18 35 (by norm_num) (by norm_num)
  have h19 : Int.floor (harmonicEdge 19 * 1024 / 48000) = ((42 : ℕ) : ℤ) :=
    harmonicEdgeFloor 19 42 (by norm_num) (by norm_num)
  have h20 : Int.floor (harmonicEdge 20 * 1024 / 48000) = ((50 : ℕ) : ℤ) :=
    harmonicEdgeFloor 20 50 (by norm_num) (by norm_num)
  have h21 : Int.floor (harmonicEdge 21 * 1024 / 48000) = ((59 : ℕ) : ℤ) :=
    harmonicEdgeFloor 21 59 (by norm_num) (by norm_num)
  have h22 : Int.floor (harmonicEdge 22 * 1024 / 48000) = ((70 : ℕ) : ℤ) :=
    harmonicEdgeFloor 22 70 (by norm_num) (by norm_num)
  have h23 : Int.floor (harmonicEdge 23 * 1024 / 48000) = ((83 : ℕ) : ℤ) :=
    harmonicEdgeFloor 23 83 (by norm_num) (by norm_num)
  have h24 : Int.floor (harmonicEdge 24 * 1024 / 48000) = ((99 : ℕ) : ℤ) :=
    harmonicEdgeFloor 24 99 (by norm_num) (by norm_num)
  have h25 : Int.floor (harmonicEdge 25 * 1024 / 48000) = ((117 : ℕ) : ℤ) :=
    harmonicEdgeFloor 25 117 (by norm_num) (by norm_num)
  have h26 : Int.floor (harmonicEdge 26 * 1024 / 48000) = ((139 : ℕ) : ℤ) :=
    harmonicEdgeFloor 26 139 (by norm_num) (by norm_num)
  have h27 : Int.floor (harmonicEdge 27 * 1024 / 48000) = ((164 : ℕ) : ℤ) :=
    harmonicEdgeFloor 27 164 (by norm_num) (by norm_num)
  have h28 : Int.floor (harmonicEdge 28 * 1024 / 48000) = ((195 : ℕ) : ℤ) :=
    harmonicEdgeFloor 28 195 (by norm_num) (by norm_num)
  have h29 : Int.floor (harmonicEdge 29 * 1024 / 48000) = ((231 : ℕ) : ℤ) :=
    harmonicEdgeFloor 29 231 (by norm_num) (by norm_num)
  have h30 : Int.floor (harmonicEdge 30 * 1024 / 48000) = ((273 : ℕ) : ℤ) :=
    harmonicEdgeFloor 30 273 (by norm_num) (by norm_num)
  have h31 : Int.floor (harmonicEdge 31 * 1024 / 48000) = ((324 : ℕ) : ℤ) :=
    harmonicEdgeFloor 31 324 (by norm_num) (by norm_num)
  have h32 : Int.floor (harmonicEdge 32 * 1024 / 48000) = ((384 : ℕ) : ℤ) :=
    harmonicEdgeFloor 32 384 (by norm_num) (by norm_num)
  have hexp : harmonicMapping = [
      harmonicKpair 48000 (harmonicEdge 0) (harmonicEdge 1),
      harmonicKpair 48000 (harmonicEdge 1) (harmonicEdge 2),
      harmonicKpair 48000 (harmonicEdge 2) (harmonicEdge 3),
      harmonicKpair 48000 (harmonicEdge 3) (harmonicEdge 4),
      harmonicKpair 48000 (harmonicEdge 4) (harmonicEdge 5),
      harmonicKpair 48000 (harmonicEdge 5) (harmonicEdge 6),
      harmonicKpair 48000 (harmonicEdge 6) (harmonicEdge 7),
      harmonicKpair 48000 (harmonicEdge 7) (harmonicEdge 8),
      harmonicKpair 48000 (harmonicEdge 8) (harmonicEdge 9),
      harmonicKpair 48000 (harmonicEdge 9) (harmonicEdge 10),
      harmonicKpair 48000 (harmonicEdge 10) (harmonicEdge 11),
      harmonicKpair 48000 (harmonicEdge 11) (harmonicEdge 12),
      harmonicKpair 48000 (harmonicEdge 12) (harmonicEdge 13),
      harmonicKpair 48000 (harmonicEdge 13) (harmonicEdge 14),
      harmonicKpair 48000 (harmonicEdge 14) (harmonicEdge 15),
      harmonicKpair 48000 (harmonicEdge 15) (harmonicEdge 16),
      harmonicKpair 48000 (harmonicEdge 16) (harmonicEdge 17),
      harmonicKpair 48000 (harmonicEdge 17) (harmonicEdge 18),
      harmonicKpair 48000 (harmonicEdge 18) (harmonicEdge 19),
      harmonicKpair 48000 (harmonicEdge 19) (harmonicEdge 20),
      harmonicKpair 48000 (harmonicEdge 20) (harmonicEdge 21),
      harmonicKpair 48000 (harmonicEdge 21) (harmonicEdge 22),
      harmonicKpair 48000 (harmonicEdge 22) (harmonicEdge 23),
      harmonicKpair 48000 (harmonicEdge 23) (harmonicEdge 24),
      harmonicKpair 48000 (harmonicEdge 24) (harmonicEdge 25),
      harmonicKpair 48000 (harmonicEdge 25) (harmonicEdge 26),
      harmonicKpair 48000 (harmonicEdge 26) (harmonicEdge 27),
      harmonicKpair 48000 (harmonicEdge 27) (harmonicEdge 28),
      harmonicKpair 48000 (harmonicEdge 28) (harmonicEdge 29),
      harmonicKpair 48000 (harmonicEdge 29) (harmonicEdge 30),
      harmonicKpair 48000 (harmonicEdge 30) (harmonicEdge 31),
      harmonicKpair 48000 (harmonicEdge 31) (harmonicEdge 32)] := rfl
  rw [hexp]
  simp only [harmonicKpair]
  rw [h0, h1, h2, h3, h4, h5, h6, h7, h8, h9, h10, h11, h12, h13, h14, h15, h16, h17, h18, h19, h20, h21, h22, h23, h24, h25, h26, h27, h28, h29, h30, h31, h32]
  norm_num [harmonicPairs]


lemma macroMapping_concrete : macroMapping = macroPairs := by
  have h0 : Int.floor (macroEdge 0 * 8192 / 48000) = ((8 : ℕ) : ℤ) :=
    macroEdgeFloor 0 8 (by norm_num) (by norm_num)
  have h1 : Int.floor (macroEdge 1 * 8192 / 48000) = ((13 : ℕ) : ℤ) :=
    macroEdgeFloor 1 13 (by norm_num) (by norm_num)
  have h2 : Int.floor (macroEdge 2 * 8192 / 48000) = ((22 : ℕ) : ℤ) :=
    macroEdgeFloor 2 22 (by norm_num) (by norm_num)
  have h3 : Int.floor (macroEdge 3 * 8192 / 48000) = ((36 : ℕ) : ℤ) :=
    macroEdgeFloor 3 36 (by norm_num) (by norm_num)
  have h4 : Int.floor (macroEdge 4 * 8192 / 48000) = ((58 : ℕ) : ℤ) :=
    macroEdgeFloor 4 58 (by norm_num) (by norm_num)
  have h5 : Int.floor (macroEdge 5 * 8192 / 48000) = ((94 : ℕ) : ℤ) :=
    macroEdgeFloor 5 94 (by norm_num) (by norm_num)
  have h6 : Int.floor (macroEdge 6 * 8192 / 48000) = ((152 : ℕ) : ℤ) :=
    macroEdgeFloor 6 152 (by norm_num) (by norm_num)
  have h7 : Int.floor (macroEdge 7 * 8192 / 48000) = ((246 : ℕ) : ℤ) :=
    macroEdgeFloor 7 246 (by norm_num) (by norm_num)
  have h8 : Int.floor (macroEdge 8 * 8192 / 48000) = ((399 : ℕ) : ℤ) :=
    macroEdgeFloor 8 399 (by norm_num) (by norm_num)
  have h9 : Int.floor (macroEdge 9 * 8192 / 48000) = ((645 : ℕ) : ℤ) :=
    macroEdgeFloor 9 645 (by norm_num) (by norm_num)
  have h10 : Int.floor (macroEdge 10 * 8192 / 48000) = ((1044 : ℕ) : ℤ) :=
    macroEdgeFloor 10 1044 (by norm_num) (by norm_num)
  have h11 : Int.floor (macroEdge 11 * 8192 / 48000) = ((1688 : ℕ) : ℤ) :=
    macroEdgeFloor 11 1688 (by norm_num) (by norm_num)
  have h12 : Int.floor (macroEdge 12 * 8192 / 48000) = ((2730 : ℕ) : ℤ) :=
    macroEdgeFloor 12 2730 (by norm_num) (by norm_num)
  have hexp : macroMapping = [
      macroKpair 48000 (macroEdge 0) (macroEdge 1),
      macroKpair 48000 (macroEdge 1) (macroEdge 2),
      macroKpair 48000 (macroEdge 2) (macroEdge 3),
      macroKpair 48000 (macroEdge 3) (macroEdge 4),
      macroKpair 48000 (macroEdge 4) (macroEdge 5),
      macroKpair 48000 (macroEdge 5) (macroEdge 6),
      macroKpair 48000 (macroEdge 6) (macroEdge 7),
      macroKpair 48000 (macroEdge 7) (macroEdge 8),
      macroKpair 48000 (macroEdge 8) (macroEdge 9),
      macroKpair 48000 (macroEdge 9) (macroEdge 10),
      macroKpair 48000 (macroEdge 10) (macroEdge 11),
      macroKpair 48000 (macroEdge 11) (macroEdge 12)] := rfl
  rw [hexp]
  simp only [macroKpair]
  rw [h0, h1, h2, h3, h4, h5, h6, h7, h8, h9, h10, h11, h12]
  norm_num [macroPairs]

/-- C3 amended. At the configured 48000 Hz rate: every band of every
resolution satisfies the weakened `1 ≤ lo ≤ hi ≤ N/2`, and `lo < hi` (the
claim's strict form) holds for every band EXCEPT percussive band 0
(`lo = hi = 1`) and harmonic bands 1, 2 and 4 (`(2,2)`, `(2,2)`, `(3,3)`),
which are degenerate and empty. In detail: every bass band, every macro band,
all harmonic bands other than 1, 2, 4, and (for any edge sequence within the
code's `[fMin, fMax] = [20, 18000]` window) every band of the repaired 32-band
layout satisfy `1 ≤ lo < hi ≤ N/2`; every percussive and harmonic band
satisfies the weak form. -/
theorem C3_bandValidity (edges : ℕ → ℚ)
    (h20 : ∀ i, i ≤ 32 → 20 ≤ edges i)
    (h18k : ∀ i, i ≤ 32 → edges i ≤ 18000) :
    (∀ p ∈ bassMapping 48000, bandValidStrict (4096 / 2) p) ∧
    (∀ p ∈ percMapping 48000, bandValidWeak (256 / 2) p) ∧
    percKpair 48000 0 = (1, 1) ∧
    (∀ p ∈ (percMapping 48000).drop 1, bandValidStrict (256 / 2) p) ∧
    (∀ p ∈ harmonicMapping, bandValidWeak (1024 / 2) p) ∧
    harmonicMapping[1]? = some (2, 2) ∧
    harmonicMapping[2]? = some (2, 2) ∧
    harmonicMapping[4]? = some (3, 3) ∧
    (∀ t, t < 32 → t ∉ ([1, 2, 4] : List ℕ) →
      bandValidStrict (1024 / 2) ((harmonicMapping[t]?).getD (0, 0))) ∧
    (∀ p ∈ macroMapping, bandValidStrict (8192 / 2) p) ∧
    (∀ p ∈ layout32 48000 edges, bandValidStrict (1024 / 2) p) := by
  refine ⟨?_, ?_, ?_, ?_, ?_, ?_, ?_, ?_, ?_, ?_, ?_⟩
  · norm_num [bassMapping, bassKpair, bassF, List.range_succ, bandValidStrict]
  · rw [percMapping_concrete]
    intro p hp
    fin_cases hp <;> simp [bandValidWeak]
  · norm_num [percKpair, percEdge]
  · rw [percMapping_concrete]
    intro p hp
    fin_cases hp <;> simp [bandValidStrict]
  · rw [harmonicMapping_concrete]
    intro p hp
    fin_cases hp <;> simp [bandValidWeak]
  · rw [harmonicMapping_concrete]; decide
  · rw [harmonicMapping_concrete]; decide
  · rw [harmonicMapping_concrete]; decide
  · rw [harmonicMapping_concrete]
    decide
  · rw [macroMapping_concrete]
    intro p hp
    fin_cases hp <;> simp [bandValidStrict]
  · intro p hp
    simp only [layout32, List.mem_map, List.mem_range] at hp
    obtain ⟨i, hi, rfl⟩ := hp
    obtain ⟨hb0l, hb0r⟩ := hzToK32_bounds (edges i) (h18k i (by omega))
    obtain ⟨hb1l, hb1r⟩ := hzToK32_bounds (edges (i + 1)) (h18k (i + 1) (by omega))
    simp only [layout32Band, bandValidStrict]
    split <;> simp only <;> omega

/-- C3 witness: the amended theorem at the constant edge sequence `100 Hz`. -/
theorem C3_bandValidity_witness :
    (∀ p ∈ bassMapping 48000, bandValidStrict (4096 / 2) p) ∧
    (∀ p ∈ percMapping 48000, bandValidWeak (256 / 2) p) ∧
    percKpair 48000 0 = (1, 1) ∧
    (∀ p ∈ (percMapping 48000).drop 1, bandValidStrict (256 / 2) p) ∧
    (∀ p ∈ harmonicMapping, bandValidWeak (1024 / 2) p) ∧
    harmonicMapping[1]? = some (2, 2) ∧
    harmonicMapping[2]? = some (2, 2) ∧
    harmonicMapping[4]? = some (3, 3) ∧
    (∀ t, t < 32 → t ∉ ([1, 2, 4] : List ℕ) →
      bandValidStrict (1024 / 2) ((harmonicMapping[t]?).getD (0, 0))) ∧
    (∀ p ∈ macroMapping, bandValidStrict (8192 / 2) p) ∧
    (∀ p ∈ layout32 48000 (fun _ => 100), bandValidStrict (1024 / 2) p) :=
  C3_bandValidity (fun _ => 100) (fun _ _ => by norm_num) (fun _ _ => by norm_num)

/-! ## Chromagram (C5)

`setupChromagramMapping` accumulates, per pitch class, the MINIMUM and MAXIMUM
bin over the in-range octaves of that class (`_chromaKLo = min k`,
`_chromaKHi = max (k + 2)`), and `extractMusicalFeatures` then sums the whole
contiguous range `[kLo, kHi)` — including every bin between octaves.  The
octave frequencies `440 * 2^(octave + semitone/12)` are irrational except for
pitch class A (`semitone = 0`), whose frequencies `440 * 2^octave` are exact —
the development instantiates the mapping at class A / 48000 Hz. -/

/-- The octave-scan loop of `setupChromagramMapping`, over a list of candidate
octave frequencies (`break` on the first frequency above `_sr/2`; update
`lo := min lo k`, `hi := max hi (k + 2)` when `1 ≤ k < _N/2`, `_N = 1024`). -/
def chromaScan (sr : ℚ) (acc : ℤ × ℤ) : List ℚ → ℤ × ℤ
  | [] => acc
  | f :: rest =>
    if f > sr / 2 then acc
    else
      let k := Int.floor (f * 1024 / sr)
      let acc2 := if 1 ≤ k ∧ k < 1024 / 2 then (min acc.1 k, max acc.2 (k + 2)) else acc
      chromaScan sr acc2 rest

/-- Pitch-class bin range: scan starts from `(lo, hi) = (_N/2, 1)`. -/
def chromaRange (sr : ℚ) (freqs : List ℚ) : ℤ × ℤ :=
  chromaScan sr (1024 / 2, 1) freqs

/-- Octave frequencies of pitch class A (`440 * 2^octave`, octaves 1..7). -/
def chromaFreqsA : List ℚ := [880, 1760, 3520, 7040, 14080, 28160, 56320]

/-- Class A bin range at 48000 Hz. -/
def chromaRangeA : ℤ × ℤ := chromaRange 48000 chromaFreqsA

/-- The chroma accumulation of `extractMusicalFeatures` for one class:
`0.5 * Σ_{kLo ≤ k < kHi, k < _specSize} (magL[k] + magR[k])`, with
`_specSize = _N/2 + 1 = 513` and `mag k` the combined L+R magnitude of bin
`k`. -/
def chromaAccum (lo hi : ℤ) (mag : ℕ → ℚ) : ℚ :=
  (1 / 2) * ((List.range 513).map
    (fun (k : ℕ) => if lo ≤ (k : ℤ) ∧ (k : ℤ) < hi then mag k else 0)).sum

/-- A spectrum whose combined magnitude is `m` at bin `k0` and zero
elsewhere. -/
def deltaMag (k0 : ℕ) (m : ℚ) : ℕ → ℚ := fun k => if k = k0 then m else 0

lemma range_if_delta_sum (lo hi : ℤ) (n k0 : ℕ) (m : ℚ) :
    ((List.range n).map
      (fun (k : ℕ) => if lo ≤ (k : ℤ) ∧ (k : ℤ) < hi
        then (if k = k0 then m else 0) else 0)).sum
      = if k0 < n ∧ (lo ≤ (k0 : ℤ) ∧ (k0 : ℤ) < hi) then m else 0 := by
  induction n with
  | zero => simp
  | succ n ih =>
    rw [List.range_succ, List.map_append, List.sum_append, ih]
    by_cases hk : n = k0
    · subst hk
      by_cases hp : lo ≤ (n : ℤ) ∧ (n : ℤ) < hi
      · simp [hp, Nat.lt_irrefl]
      · simp [hp]
    · by_cases hlt : k0 < n
      · have h2 : k0 < n + 1 := by omega
        simp only [List.map_cons, List.map_nil, List.sum_cons, List.sum_nil]
        by_cases hp : lo ≤ (n : ℤ) ∧ (n : ℤ) < hi <;> simp [hp, hk, hlt, h2]
      · have h1 : ¬ (k0 < n + 1) := by omega
        by_cases hp : lo ≤ (n : ℤ) ∧ (n : ℤ) < hi <;> simp [hp, hk, hlt, h1]

lemma chromaRangeA_concrete : chromaRangeA = (18, 302) := by
  norm_num [chromaRangeA, chromaRange, chromaScan, chromaFreqsA]

/-- C5 counterexample. The class-A bin range at 48000 Hz is the contiguous
`[18, 302)` (lowest octave bin 18 up to highest in-range octave bin 300, plus
2).  Bin 50 (≈ 2344 Hz) is more than 2 bins away from every in-range octave of
class A (bins 18, 37, 75, 150, 300), yet a spectrum with magnitude only at bin
50 contributes `1/2 · m ≠ 0` to the class-A chroma bin — far-from-octave bins
do contribute, refuting the claim. -/
theorem C5_counterexample :
    chromaRangeA = (18, 302) ∧
    (∀ f ∈ chromaFreqsA, f ≤ 24000 →
      2 < |(50 : ℤ) - Int.floor (f * 1024 / 48000)|) ∧
    chromaAccum chromaRangeA.1 chromaRangeA.2 (deltaMag 50 1) ≠ 0 := by
  refine ⟨chromaRangeA_concrete, ?_, ?_⟩
  · intro f hf
    fin_cases hf <;> norm_num
  · rw [chromaRangeA_concrete]
    simp only [chromaAccum, deltaMag]
    rw [range_if_delta_sum]
    norm_num

/-- C5 amended. Each pitch-class bin accumulates magnitude over one contiguous
bin range running from the lowest in-range octave bin to the highest in-range
octave bin plus 2; for class A at 48000 Hz that range is `[18, 302)`, and a
spectrum carrying magnitude `m` at a single bin `k0` contributes `m/2` to the
class-A chroma bin exactly when `k0` lies in the range — regardless of `k0`'s
proximity to any octave of the class. -/
theorem C5_chromaContiguous (k0 : ℕ) (m : ℚ) :
    chromaRangeA = (18, 302) ∧
    chromaAccum chromaRangeA.1 chromaRangeA.2 (deltaMag k0 m)
      = if k0 < 513 ∧ (18 ≤ (k0 : ℤ) ∧ (k0 : ℤ) < 302) then m / 2 else 0 := by
  refine ⟨chromaRangeA_concrete, ?_⟩
  rw [chromaRangeA_concrete]
  simp only [chromaAccum, deltaMag]
  rw [range_if_delta_sum]
  split <;> ring

/-! ## Onset detection cooldown (C7)

`detectOnsets`: decrement `_onsetTimer` (if positive), then fire exactly when
the decremented timer is 0 and the total flux exceeds `_fluxThreshold = 0.1`;
firing resets the timer to `_onsetCooldown = 10`. -/

/-- One `detectOnsets` step, restricted to the onset/cooldown logic: input the
current `_onsetTimer` and the step's total flux, output `(_isOnset, timer')`. -/
def onsetStep (timer : ℕ) (flux : ℚ) : Bool × ℕ :=
  if (if 0 < timer then timer - 1 else timer) = 0 ∧ (1 / 10 : ℚ) < flux
  then (true, 10)
  else (false, if 0 < timer then timer - 1 else timer)

/-- Run `detectOnsets` over a stream of per-step total-flux values, returning
the per-step `_isOnset` flags. -/
def runOnsets (timer : ℕ) : List ℚ → List Bool
  | [] => []
  | f :: rest =>
    let r := onsetStep timer f
    r.1 :: runOnsets r.2 rest

/-- Flux stream with exactly two above-threshold transients, at steps `p` and
`p + d`. -/
def twoSpikes (p d : ℕ) : List ℚ :=
  List.replicate p 0 ++ 1 :: (List.replicate (d - 1) 0 ++ [1])

lemma onsetStep_fire (timer : ℕ) (flux : ℚ) (h : (onsetStep timer flux).1 = true) :
    (onsetStep timer flux).2 = 10 := by
  by_cases hc : ((if 0 < timer then timer - 1 else timer) = 0 ∧ (1 / 10 : ℚ) < flux)
  · unfold onsetStep
    rw [if_pos hc]
  · unfold onsetStep at h
    rw [if_neg hc] at h
    simp at h

lemma onsetStep_cooling (t : ℕ) (f : ℚ) (ht : 2 ≤ t) :
    onsetStep t f = (false, t - 1) := by
  have ht0 : 0 < t := by omega
  have h0 : ¬ (t - 1 = 0) := by omega
  simp [onsetStep, ht0, h0]

lemma runOnsets_noFire (fs : List ℚ) :
    ∀ (t j : ℕ), j + 1 < t → (runOnsets t fs).get? j ≠ some true := by
  induction fs with
  | nil => intro t j _; simp [runOnsets]
  | cons f rest ih =>
    intro t j hj
    simp only [runOnsets]
    rw [onsetStep_cooling t f (by omega)]
    match j with
    | 0 => simp
    | j + 1 =>
      simp only [List.get?_cons_succ]
      exact ih (t - 1) j (by omega)

/-- C7. (1) Whenever an onset fires at step `i`, no onset fires at any of the
following `cooldown - 1 = 9` steps, for any flux stream and any starting timer.
(2) Consequently a stream with exactly two above-threshold transients spaced
`d ≤ 9` steps apart (cooldown = 10), starting with an idle timer, produces
exactly one onset event. -/
theorem C7_onsetCooldown :
    (∀ (fs : List ℚ) (t0 i d : ℕ),
      (runOnsets t0 fs).get? i = some true →
      1 ≤ d → d ≤ 9 →
      (runOnsets t0 fs).get? (i + d) ≠ some true) ∧
    (∀ (p d : ℕ), 1 ≤ d → d ≤ 9 →
      (runOnsets 0 (twoSpikes p d)).count true = 1) := by
  constructor
  · intro fs
    induction fs with
    | nil => intro t0 i d h _ _; simp [runOnsets] at h
    | cons f rest ih =>
      intro t0 i d h hd1 hd9
      simp only [runOnsets] at h ⊢
      match i with
      | 0 =>
        simp only [List.get?_cons_zero, Option.some.injEq] at h
        have h10 : (onsetStep t0 f).2 = 10 := onsetStep_fire t0 f h
        rw [h10]
        obtain ⟨d', rfl⟩ : ∃ d', d = d' + 1 := ⟨d - 1, by omega⟩
        simp only [Nat.zero_add, List.get?_cons_succ]
        exact runOnsets_noFire rest 10 d' (by omega)
      | i + 1 =>
        simp only [List.get?_cons_succ] at h
        have hrec := ih ((onsetStep t0 f).2) i d h hd1 hd9
        have heq : i + 1 + d = (i + d) + 1 := by omega
        rw [heq, List.get?_cons_succ]
        exact hrec
  · intro p d hd1 hd9
    have hzeros : ∀ (q : ℕ) (rest : List ℚ),
        runOnsets 0 (List.replicate q 0 ++ rest)
          = List.replicate q false ++ runOnsets 0 rest := by
      intro q
      induction q with
      | zero => intro rest; simp
      | succ q ihq =>
        intro rest
        have hstep : onsetStep 0 0 = (false, 0) := by norm_num [onsetStep]
        simp only [List.replicate_succ, List.cons_append, runOnsets, hstep, List.append_eq]
        rw [ihq]
    have hspike : ∀ rest : List ℚ,
        runOnsets 0 ((1 : ℚ) :: rest) = true :: runOnsets 10 rest := by
      intro rest
      have hstep : onsetStep 0 1 = (true, 10) := by norm_num [onsetStep]
      simp [runOnsets, hstep]
    have hallFalse : ∀ (xs : List ℚ) (t : ℕ), xs.length < t →
        runOnsets t xs = List.replicate xs.length false := by
      intro xs
      induction xs with
      | nil => intro t _; simp [runOnsets]
      | cons x restx ihx =>
        intro t hlt
        simp only [List.length_cons] at hlt
        simp only [runOnsets]
        rw [onsetStep_cooling t x (by omega)]
        rw [ihx (t - 1) (by omega)]
        simp [List.replicate_succ]
    rw [twoSpikes, hzeros, hspike,
      hallFalse (List.replicate (d - 1) 0 ++ [1]) 10 (by simp; omega)]
    simp [List.count_append, List.count_replicate, List.count_cons]

/-- C7 witness: two adjacent transients (`d = 1`) produce one onset, and a
fire at step 0 of the stream `[1, 1]` suppresses step 1. -/
theorem C7_onsetCooldown_witness :
    ((runOnsets 0 [(1 : ℚ), 1]).get? 1 ≠ some true) ∧
    (runOnsets 0 (twoSpikes 0 1)).count true = 1 :=
  ⟨C7_onsetCooldown.1 [(1 : ℚ), 1] 0 0 1
      (by norm_num [runOnsets, onsetStep]) (by norm_num) (by norm_num),
   C7_onsetCooldown.2 0 1 (by norm_num) (by norm_num)⟩

/-! ## UdpSrSender (C8)

`sendFromBins` on the accepted path (throttle elapsed, target set).  The only
transcendental in the function is `log10`; it is passed in as a parameter
`log10f` constrained exactly where the theorem needs it (`log10 10⁻⁶ = -6`).
Byte quantization `std::lround` is `round` (values are non-negative). -/

/-- AGC state: `_fast` (init 0) and `_slow` (init 10⁻³). -/
structure AgcState where
  fast : ℚ
  slow : ℚ
  deriving Repr, DecidableEq

def agcInit : AgcState := { fast := 0, slow := 1 / 1000 }

/-- One AGC update: `_fast = 0.4*_fast + 0.6*mean`,
`_slow = 0.98*_slow + 0.02*mean`. -/
def agcStep (st : AgcState) (mean : ℚ) : AgcState :=
  { fast := (2 / 5) * st.fast + (3 / 5) * mean,
    slow := (49 / 50) * st.slow + (1 / 50) * mean }

/-- The AGC state after `n` accepted all-zero sends from the initial state. -/
def agcSettle : ℕ → AgcState
  | 0 => agcInit
  | n + 1 => agcStep (agcSettle n) 0

/-- `std::clamp` on rationals. -/
def qclamp (v lo hi : ℚ) : ℚ := max lo (min v hi)

/-- One packet byte of `fftResult`: segment-average of the input bins
(`k0 = i*N/16`, `k1 = max(k0, (i+1)*N/16 - 1)`, inclusive), each bin clamped to
`[0,1]`, then `lround(avg * 255)`. -/
def segAvgByte (bins : List ℚ) (i : ℕ) : ℤ :=
  let n := bins.length
  if n = 0 then 0
  else
    let k0 := (i * n) / 16
    let k1 := max k0 ((i + 1) * n / 16 - 1)
    let cnt := k1 - k0 + 1
    let acc := ((List.range cnt).map (fun j => qclamp (bins.getD (k0 + j) 0) 0 1)).sum
    round (acc / (cnt : ℚ) * 255)

/-- The observable fields of one `SrV2Packet` as filled by `sendFromBins`. -/
structure SrPacketFields where
  sampleRaw : ℚ
  sampleSmth : ℚ
  samplePeak : ℕ
  fftResult : List ℤ
  deriving Repr, DecidableEq

/-- `UdpSrSender::sendFromBins`, accepted path: mean of bins, AGC update,
`ratio = fast / max(slow, 10⁻⁶)`, `rdb = 10*log10(max(ratio, 10⁻⁶))`,
`v01 = clamp((rdb+6)/18, 0, 1)`; `sampleRaw = clamp(mean,0,1)*255`,
`sampleSmth = v01*255`, `samplePeak = rdb > 9`, 16 quantized segment
averages. -/
def sendFromBins (log10f : ℚ → ℚ) (st : AgcState) (bins : List ℚ) :
    SrPacketFields × AgcState :=
  let mean := if bins.length = 0 then 0 else bins.sum / (bins.length : ℚ)
  let st2 := agcStep st mean
  let rdb := 10 * log10f (max (st2.fast / max st2.slow (1 / 1000000)) (1 / 1000000))
  let v01 := qclamp ((rdb + 6) / 18) 0 1
  ({ sampleRaw := qclamp mean 0 1 * 255,
     sampleSmth := v01 * 255,
     samplePeak := if 9 < rdb then 1 else 0,
     fftResult := (List.range 16).map (segAvgByte bins) }, st2)

lemma agcSettle_fast (n : ℕ) : (agcSettle n).fast = 0 := by
  induction n with
  | zero => rfl
  | succ n ih => simp [agcSettle, agcStep, ih]

lemma segAvgByte_zeros (i : ℕ) : segAvgByte (List.replicate 16 (0 : ℚ)) i = 0 := by
  have hget : ∀ k : ℕ, (List.replicate 16 (0 : ℚ)).getD k 0 = 0 := by
    intro k
    rcases Nat.lt_or_ge k 16 with hk | hk
    · rw [List.getD_eq_getElem?_getD, List.getElem?_replicate, if_pos hk]
      rfl
    · rw [List.getD_eq_getElem?_getD, List.getElem?_eq_none (by simpa using hk)]
      rfl
  have hz : ∀ (cnt k0 : ℕ),
      ((List.range cnt).map
        (fun j => qclamp ((List.replicate 16 (0 : ℚ)).getD (k0 + j) 0) 0 1)).sum = 0 := by
    intro cnt k0
    induction cnt with
    | zero => simp
    | succ c ihc =>
      rw [List.range_succ, List.map_append, List.sum_append, ihc]
      simp only [List.map_cons, List.map_nil, List.sum_cons, List.sum_nil, hget]
      norm_num [qclamp]
  simp only [segAvgByte, List.length_replicate]
  rw [if_neg (by norm_num), hz]
  simp

/-- C8. For any number `n` of preceding accepted all-zero sends (the settled
AGC state) and any `log10` with `log10 10⁻⁶ = -6`, an accepted call on the
all-zero 16-bin vector emits a packet with `sampleRaw = 0`, `sampleSmth = 0`,
`samplePeak = 0` and all 16 `fftResult` bytes 0. -/
theorem C8_zeroPacket (n : ℕ) (log10f : ℚ → ℚ)
    (hlog : log10f (1 / 1000000) = -6) :
    (sendFromBins log10f (agcSettle n) (List.replicate 16 0)).1.sampleRaw = 0 ∧
    (sendFromBins log10f (agcSettle n) (List.replicate 16 0)).1.sampleSmth = 0 ∧
    (sendFromBins log10f (agcSettle n) (List.replicate 16 0)).1.samplePeak = 0 ∧
    (sendFromBins log10f (agcSettle n) (List.replicate 16 0)).1.fftResult
      = List.replicate 16 0 := by
  have hmean : (if (List.replicate 16 (0 : ℚ)).length = 0 then (0 : ℚ)
      else (List.replicate 16 (0 : ℚ)).sum / ((List.replicate 16 (0 : ℚ)).length : ℚ)) = 0 := by
    simp
  have hfast : (agcStep (agcSettle n) 0).fast = 0 := by
    simp [agcStep, agcSettle_fast]
  have hrdb : 10 * log10f (max ((agcStep (agcSettle n) 0).fast
      / max (agcStep (agcSettle n) 0).slow (1 / 1000000)) (1 / 1000000)) = -60 := by
    rw [hfast]
    rw [zero_div, max_eq_right (by norm_num), hlog]
    norm_num
  refine ⟨?_, ?_, ?_, ?_⟩
  · simp only [sendFromBins, hmean]
    norm_num [qclamp]
  · simp only [sendFromBins, hmean, hrdb]
    norm_num [qclamp]
  · simp only [sendFromBins, hmean, hrdb]
    norm_num
  · simp only [sendFromBins]
    rw [List.eq_replicate_iff]
    constructor
    · simp
    · intro b hb
      simp only [List.mem_map, List.mem_range] at hb
      obtain ⟨i, -, rfl⟩ := hb
      exact segAvgByte_zeros i

/-- C8 witness: the theorem at `n = 0` and the constant `log10` model. -/
theorem C8_zeroPacket_witness :
    (sendFromBins (fun _ => -6) (agcSettle 0) (List.replicate 16 0)).1.sampleRaw = 0 ∧
    (sendFromBins (fun _ => -6) (agcSettle 0) (List.replicate 16 0)).1.sampleSmth = 0 ∧
    (sendFromBins (fun _ => -6) (agcSettle 0) (List.replicate 16 0)).1.samplePeak = 0 ∧
    (sendFromBins (fun _ => -6) (agcSettle 0) (List.replicate 16 0)).1.fftResult
      = List.replicate 16 0 :=
  C8_zeroPacket 0 (fun _ => -6) rfl

/-! ## 16-bin control vector (C10)

The `32 (L/R) -> 16 mono control bins` block of
`AudioProcessor::processAvailableStereo`: pair adjacent 32-band magnitudes,
average L/R, then per-frame max-normalize to `[0, 1]` (emit zeros when the
32-band data is not present). -/

/-- The 16 mono values: `0.5*(0.5*(L[2i]+L[2i+1]) + 0.5*(R[2i]+R[2i+1]))`. -/
def mono16 (L R : List ℚ) : List ℚ :=
  (List.range 16).map (fun i =>
    (1 / 2) * ((1 / 2) * (L.getD (2 * i) 0 + L.getD (2 * i + 1) 0)
             + (1 / 2) * (R.getD (2 * i) 0 + R.getD (2 * i + 1) 0)))

/-- `float mx = 0; for (v : bins) if (v > mx) mx = v;` -/
def listMax0 (l : List ℚ) : ℚ := l.foldl max 0

/-- The emitted `bins16`: zeros when the 32-band vectors are not both present;
otherwise the mono pairs, normalized by `clamp(v * (1/mx), 0, 1)` when
`mx > 0`. -/
def bins16Of (L R : List ℚ) : List ℚ :=
  if L.length = 32 ∧ R.length = 32 then
    if 0 < listMax0 (mono16 L R) then
      (mono16 L R).map (fun v => qclamp (v * (1 / listMax0 (mono16 L R))) 0 1)
    else mono16 L R
  else List.replicate 16 0

lemma le_foldl_max (l : List ℚ) : ∀ a : ℚ, a ≤ l.foldl max a := by
  induction l with
  | nil => intro a; simp
  | cons x t ih => intro a; exact le_trans (le_max_left a x) (ih (max a x))

lemma mem_le_foldl_max (l : List ℚ) : ∀ (a x : ℚ), x ∈ l → x ≤ l.foldl max a := by
  induction l with
  | nil => intro a x hx; simp at hx
  | cons y t ih =>
    intro a x hx
    rcases List.mem_cons.mp hx with rfl | hx
    · exact le_trans (le_max_right a x) (le_foldl_max t (max a x))
    · exact ih (max a y) x hx

lemma foldl_max_le (l : List ℚ) :
    ∀ (a b : ℚ), a ≤ b → (∀ x ∈ l, x ≤ b) → l.foldl max a ≤ b := by
  induction l with
  | nil => intro a b hab _; simpa
  | cons y t ih =>
    intro a b hab h
    refine ih (max a y) b (max_le hab (h y (by simp))) ?_
    intro x hx
    exact h x (List.mem_cons_of_mem y hx)

lemma foldl_max_mem_or (l : List ℚ) :
    ∀ a : ℚ, l.foldl max a = a ∨ l.foldl max a ∈ l := by
  induction l with
  | nil => intro a; left; rfl
  | cons y t ih =>
    intro a
    rw [List.foldl_cons]
    rcases ih (max a y) with h | h
    · rw [h]
      rcases le_total y a with hy | hy
      · left; exact max_eq_left hy
      · right; rw [max_eq_right hy]; exact List.mem_cons_self y t
    · right; exact List.mem_cons_of_mem y h

lemma getD_nonneg (l : List ℚ) (h : ∀ x ∈ l, 0 ≤ x) (k : ℕ) : 0 ≤ l.getD k 0 := by
  rcases Nat.lt_or_ge k l.length with hk | hk
  · rw [List.getD_eq_getElem?_getD, List.getElem?_eq_getElem hk]
    exact h _ (List.getElem_mem hk)
  · rw [List.getD_eq_getElem?_getD, List.getElem?_eq_none hk]
    rfl

lemma mono16_nonneg (L R : List ℚ) (hL : ∀ x ∈ L, 0 ≤ x) (hR : ∀ x ∈ R, 0 ≤ x) :
    ∀ v ∈ mono16 L R, 0 ≤ v := by
  intro v hv
  simp only [mono16, List.mem_map, List.mem_range] at hv
  obtain ⟨i, -, rfl⟩ := hv
  have h1 := getD_nonneg L hL (2 * i)
  have h2 := getD_nonneg L hL (2 * i + 1)
  have h3 := getD_nonneg R hR (2 * i)
  have h4 := getD_nonneg R hR (2 * i + 1)
  linarith

lemma qclamp01_nonneg (v : ℚ) : 0 ≤ qclamp v 0 1 := le_max_left 0 _

lemma qclamp01_le_one (v : ℚ) : qclamp v 0 1 ≤ 1 :=
  max_le (by norm_num) (min_le_right v 1)

set_option maxHeartbeats 1000000 in
/-- C10. The 16-bin control vector emitted to the encoder always has exactly 16
elements, each in `[0, 1]`; when the 32-band data is absent it is all zeros;
when present with zero maximum (given the bands are magnitudes, hence
non-negative) it is all zeros; and when present with positive maximum it is
max-normalized so its largest element is exactly 1 — discharging the encoder's
documented `values in [0, 1]` precondition. -/
theorem C10_bins16Invariant (L R : List ℚ)
    (hL : ∀ x ∈ L, 0 ≤ x) (hR : ∀ x ∈ R, 0 ≤ x) :
    (bins16Of L R).length = 16 ∧
    (∀ v ∈ bins16Of L R, 0 ≤ v ∧ v ≤ 1) ∧
    (¬ (L.length = 32 ∧ R.length = 32) → bins16Of L R = List.replicate 16 0) ∧
    (L.length = 32 ∧ R.length = 32 → listMax0 (mono16 L R) = 0 →
      bins16Of L R = List.replicate 16 0) ∧
    (L.length = 32 ∧ R.length = 32 → 0 < listMax0 (mono16 L R) →
      listMax0 (bins16Of L R) = 1) := by
  have hmlen : (mono16 L R).length = 16 := by simp [mono16]
  by_cases hlen : L.length = 32 ∧ R.length = 32
  · by_cases hmx : 0 < listMax0 (mono16 L R)
    · have hb : bins16Of L R
          = (mono16 L R).map (fun v => qclamp (v * (1 / listMax0 (mono16 L R))) 0 1) := by
        rw [bins16Of, if_pos hlen, if_pos hmx]
      have hmxne : listMax0 (mono16 L R) ≠ 0 := ne_of_gt hmx
      have hmem : listMax0 (mono16 L R) ∈ mono16 L R := by
        rcases foldl_max_mem_or (mono16 L R) 0 with h | h
        · exact absurd (h ▸ hmx) (by simp [listMax0, h])
        · exact h
      have hone : (1 : ℚ) ∈ bins16Of L R := by
        rw [hb]
        refine List.mem_map.mpr ⟨listMax0 (mono16 L R), hmem, ?_⟩
        rw [mul_one_div, div_self hmxne]
        norm_num [qclamp]
      refine ⟨by rw [hb]; simp [hmlen], ?_, by intro h; exact absurd hlen h, ?_, ?_⟩
      · intro v hv
        rw [hb] at hv
        simp only [List.mem_map] at hv
        obtain ⟨w, -, rfl⟩ := hv
        exact ⟨qclamp01_nonneg _, qclamp01_le_one _⟩
      · intro _ h0
        exact absurd h0 (by simpa [h0] using hmxne)
      · intro _ _
        refine le_antisymm ?_ ?_
        · refine foldl_max_le _ 0 1 (by norm_num) ?_
          intro x hx
          rw [hb] at hx
          simp only [List.mem_map] at hx
          obtain ⟨w, -, rfl⟩ := hx
          exact qclamp01_le_one _
        · exact mem_le_foldl_max _ 0 1 hone
    · have hb : bins16Of L R = mono16 L R := by
        rw [bins16Of, if_pos hlen, if_neg hmx]
      have hmx0 : listMax0 (mono16 L R) = 0 :=
        le_antisymm (not_lt.mp hmx) (le_foldl_max (mono16 L R) 0)
      have hzero : ∀ v ∈ mono16 L R, v = 0 := by
        intro v hv
        have h1 := mono16_nonneg L R hL hR v hv
        have h2 := mem_le_foldl_max (mono16 L R) 0 v hv
        rw [listMax0] at hmx0
        linarith [hmx0 ▸ h2]
      refine ⟨by rw [hb, hmlen], ?_, by intro h; exact absurd hlen h, ?_, ?_⟩
      · intro v hv
        rw [hb] at hv
        rw [hzero v hv]
        norm_num
      · intro _ _
        rw [hb, List.eq_replicate_iff]
        exact ⟨hmlen, hzero⟩
      · intro _ h
        exact absurd h hmx
  · have hb : bins16Of L R = List.replicate 16 0 := by
      rw [bins16Of, if_neg hlen]
    refine ⟨by rw [hb]; simp, ?_, fun _ => hb, fun h => absurd h hlen, fun h => absurd h hlen⟩
    intro v hv
    rw [hb] at hv
    rw [List.eq_of_mem_replicate hv]
    norm_num

/-- C10 witness: the theorem at the all-ones 32-band frame. -/
theorem C10_bins16Invariant_witness :
    (bins16Of (List.replicate 32 1) (List.replicate 32 1)).length = 16 ∧
    (∀ v ∈ bins16Of (List.replicate 32 1) (List.replicate 32 1), 0 ≤ v ∧ v ≤ 1) ∧
    (¬ ((List.replicate 32 (1 : ℚ)).length = 32 ∧ (List.replicate 32 (1 : ℚ)).length = 32) →
      bins16Of (List.replicate 32 1) (List.replicate 32 1) = List.replicate 16 0) ∧
    ((List.replicate 32 (1 : ℚ)).length = 32 ∧ (List.replicate 32 (1 : ℚ)).length = 32 →
      listMax0 (mono16 (List.replicate 32 1) (List.replicate 32 1)) = 0 →
      bins16Of (List.replicate 32 1) (List.replicate 32 1) = List.replicate 16 0) ∧
    ((List.replicate 32 (1 : ℚ)).length = 32 ∧ (List.replicate 32 (1 : ℚ)).length = 32 →
      0 < listMax0 (mono16 (List.replicate 32 1) (List.replicate 32 1)) →
      listMax0 (bins16Of (List.replicate 32 1) (List.replicate 32 1)) = 1) :=
  C10_bins16Invariant (List.replicate 32 1) (List.replicate 32 1)
    (fun x hx => by rw [List.eq_of_mem_replicate hx]; norm_num)
    (fun x hx => by rw [List.eq_of_mem_replicate hx]; norm_num)

/-! ## Stereo FIFO consumption (C4, C6)

`AudioProcessor::onFrames` appends `min(nL, nR)` samples per channel to the
FIFOs and calls `processAvailableStereo`, which consumes while both FIFOs hold
at least `_N = 1024` samples: each iteration copies the first `N` samples of
each FIFO (one emitted frame / band vector) and then erases `_hop = 256`
samples from the front of both FIFOs in lock-step.  `emittedWindows` records
the N-sample window pair consumed by each iteration, in order. -/

structure APState where
  stopFlag : Bool
  cfg : Bool
  fifoL : List ℚ
  fifoR : List ℚ
  outs : List (List ℚ × List ℚ)
  deriving Repr, DecidableEq

/-- The consume-while loop (`while fifo sizes ≥ N: take N; erase hop`), with
explicit fuel; `fuel = fifoL.length` always suffices since each iteration
erases `hop ≥ 1` samples.  Returns the consumed windows and the remaining
FIFOs. -/
def drainFuel (N hop : ℕ) : ℕ → List ℚ → List ℚ →
    List (List ℚ × List ℚ) × List ℚ × List ℚ
  | 0, x, y => ([], x, y)
  | fuel + 1, x, y =>
    if N ≤ x.length ∧ N ≤ y.length then
      ((x.take N, y.take N) :: (drainFuel N hop fuel (x.drop hop) (y.drop hop)).1,
       (drainFuel N hop fuel (x.drop hop) (y.drop hop)).2)
    else ([], x, y)

/-- `AudioProcessor::processAvailableStereo` (N = 1024, hop = 256); the loop
also re-checks `_stop`, and `ensureInit` bails when plan allocation failed, so
the state is returned unchanged unless `stopFlag = false` and `cfg = true`. -/
def processAvailableStereo (s : APState) : APState :=
  if s.stopFlag = false ∧ s.cfg = true then
    { s with
      fifoL := (drainFuel 1024 256 s.fifoL.length s.fifoL s.fifoR).2.1,
      fifoR := (drainFuel 1024 256 s.fifoL.length s.fifoL s.fifoR).2.2,
      outs := s.outs ++ (drainFuel 1024 256 s.fifoL.length s.fifoL s.fifoR).1 }
  else s

/-- The FIFO-append step of `onFrames`: `n = min(nL, nR)` samples of each
batch are appended to the corresponding FIFO. -/
def appendTrunc (s : APState) (l r : List ℚ) : APState :=
  { s with fifoL := s.fifoL ++ l.take (min l.length r.length),
           fifoR := s.fifoR ++ r.take (min l.length r.length) }

/-- `AudioProcessor::onFrames`: early-out on stop or an empty batch; otherwise
append the truncated batch and drain.  The returned flag records whether the
`qWarning` for a length mismatch was issued. -/
def onFramesAP (s : APState) (l r : List ℚ) : APState × Bool :=
  if s.stopFlag = true then (s, false)
  else if l.length = 0 ∨ r.length = 0 then (s, false)
  else (processAvailableStereo (appendTrunc s l r),
        if l.length = r.length then false else true)

/-- Feed a sequence of batches through `onFrames`. -/
def runBatches (s : APState) (bs : List (List ℚ × List ℚ)) : APState :=
  bs.foldl (fun st b => (onFramesAP st b.1 b.2).1) s

/-- `AudioProcessor::start()` followed by a successful `ensureInit`: clean
FIFOs, allocated plan. -/
def apStart : APState :=
  { stopFlag := false, cfg := true, fifoL := [], fifoR := [], outs := [] }

/-- Number of frames the engine processes for a stream of `len` samples per
channel: `floor((len - N)/hop) + 1` when `len ≥ N`, else 0 (N = 1024,
hop = 256). -/
def wcount (len : ℕ) : ℕ := if 1024 ≤ len then (len - 1024) / 256 + 1 else 0

/-- The expected consumed windows for sample streams `sL`, `sR`: the `t`-th
window is samples `[t*hop, t*hop + N)` of each stream. -/
def windowsOf (sL sR : List ℚ) : List (List ℚ × List ℚ) :=
  (List.range (wcount sL.length)).map
    (fun t => ((sL.drop (256 * t)).take 1024, (sR.drop (256 * t)).take 1024))

lemma wcount_lt (L : ℕ) (h : L < 1024) : wcount L = 0 := by
  unfold wcount
  rw [if_neg (by omega)]

lemma wcount_succ (L : ℕ) (h : 1024 ≤ L) : wcount L = wcount (L - 256) + 1 := by
  unfold wcount
  split_ifs <;> omega

lemma wcount_bounds (L : ℕ) : 256 * wcount L ≤ L ∧ L < 256 * wcount L + 1024 := by
  unfold wcount
  split_ifs <;> omega

lemma wcount_fit (L t : ℕ) (h : t < wcount L) : 256 * t + 1024 ≤ L := by
  unfold wcount at h
  by_cases hL : 1024 ≤ L
  · rw [if_pos hL] at h
    omega
  · rw [if_neg hL] at h
    omega

lemma wcount_split (L n : ℕ) :
    wcount (L + n) = wcount L + wcount (L + n - 256 * wcount L) := by
  unfold wcount
  split_ifs <;> omega

set_option maxRecDepth 8000 in
lemma windowsOf_cons (x y : List ℚ) (hN : 1024 ≤ x.length) :
    windowsOf x y = (x.take 1024, y.take 1024) :: windowsOf (x.drop 256) (y.drop 256) := by
  unfold windowsOf
  rw [List.length_drop, wcount_succ x.length hN]
  rw [List.range_succ_eq_map, List.map_cons, List.map_map]
  congr 1
  apply List.map_congr_left
  intro a ha
  simp only [Function.comp_apply]
  rw [List.drop_drop, List.drop_drop]
  have h2 : 256 * Nat.succ a = 256 + 256 * a := by omega
  rw [h2]

lemma drainFuel_spec :
    ∀ (fuel : ℕ) (x y : List ℚ), x.length = y.length →
      x.length ≤ 1023 + 256 * fuel →
      drainFuel 1024 256 fuel x y
        = (windowsOf x y,
           x.drop (256 * wcount x.length), y.drop (256 * wcount x.length)) := by
  intro fuel
  induction fuel with
  | zero =>
    intro x y hxy hle
    have h0 : wcount x.length = 0 := wcount_lt _ (by omega)
    simp [drainFuel, windowsOf, h0]
  | succ fuel ih =>
    intro x y hxy hle
    by_cases hN : 1024 ≤ x.length
    · have hcond : 1024 ≤ x.length ∧ 1024 ≤ y.length := ⟨hN, by omega⟩
      have hrec := ih (x.drop 256) (y.drop 256)
        (by simp [List.length_drop, hxy]) (by simp [List.length_drop]; omega)
      simp only [drainFuel, if_pos hcond, hrec]
      rw [windowsOf_cons x y hN]
      have hlen : (x.drop 256).length = x.length - 256 := by simp
      rw [hlen]
      have hdrop : ∀ z : List ℚ,
          (z.drop 256).drop (256 * wcount (x.length - 256)) = z.drop (256 * wcount x.length) := by
        intro z
        rw [List.drop_drop, wcount_succ x.length hN]
        have h2 : 256 + 256 * wcount (x.length - 256)
            = 256 * (wcount (x.length - 256) + 1) := by ring
        rw [h2]
      rw [hdrop x, hdrop y]
    · have hcond : ¬ (1024 ≤ x.length ∧ 1024 ≤ y.length) := by
        intro hc
        exact hN hc.1
      have h0 : wcount x.length = 0 := wcount_lt _ (by omega)
      simp [drainFuel, if_neg hcond, windowsOf, h0]

lemma drainFuel_len_eq (N hop : ℕ) :
    ∀ (fuel : ℕ) (x y : List ℚ), x.length = y.length →
      ((drainFuel N hop fuel x y).2.1).length = ((drainFuel N hop fuel x y).2.2).length := by
  intro fuel
  induction fuel with
  | zero => intro x y h; simpa [drainFuel] using h
  | succ fuel ih =>
    intro x y h
    simp only [drainFuel]
    by_cases hc : N ≤ x.length ∧ N ≤ y.length
    · rw [if_pos hc]
      exact ih (x.drop hop) (y.drop hop) (by simp [h])
    · rw [if_neg hc]
      exact h

lemma windowsOf_append (sL sR l r : List ℚ)
    (hxy : sL.length = sR.length) (hlr : l.length = r.length) :
    windowsOf (sL ++ l) (sR ++ r)
      = windowsOf sL sR
        ++ windowsOf ((sL ++ l).drop (256 * wcount sL.length))
                     ((sR ++ r).drop (256 * wcount sL.length)) := by
  have hKle : 256 * wcount sL.length ≤ sL.length := (wcount_bounds sL.length).1
  have hw1 : ∀ (z w : List ℚ), z.length = sL.length →
      ((z ++ w).drop (256 * wcount sL.length)).length
        = sL.length + w.length - 256 * wcount sL.length := by
    intro z w hz
    simp [List.length_drop, hz]
  conv_lhs => rw [windowsOf]
  rw [List.length_append, wcount_split sL.length l.length]
  rw [List.range_add, List.map_append, List.map_map]
  congr 1
  · rw [windowsOf]
    apply List.map_congr_left
    intro t ht
    rw [List.mem_range] at ht
    have hfit : 256 * t + 1024 ≤ sL.length := wcount_fit _ _ ht
    have hz : ∀ (z w : List ℚ), z.length = sL.length →
        ((z ++ w).drop (256 * t)).take 1024 = (z.drop (256 * t)).take 1024 := by
      intro z w hzlen
      rw [List.drop_append_eq_append_drop]
      have h0 : 256 * t - z.length = 0 := by omega
      rw [h0, List.drop_zero]
      rw [List.take_append_eq_append_take]
      have h1 : 1024 - (z.drop (256 * t)).length = 0 := by
        simp [List.length_drop]
        omega
      rw [h1, List.take_zero, List.append_nil]
    rw [hz sL l rfl, hz sR r hxy.symm]
  · rw [windowsOf]
    rw [hw1 sL l rfl]
    apply List.map_congr_left
    intro t ht
    simp only [Function.comp_apply]
    have hd : ∀ (z w : List ℚ), z.length = sL.length →
        (z ++ w).drop (256 * (wcount sL.length + t))
          = ((z ++ w).drop (256 * wcount sL.length)).drop (256 * t) := by
      intro z w hzlen
      rw [List.drop_drop]
      congr 1
      ring
    rw [hd sL l rfl, hd sR r hxy.symm]

/-- The run invariant: `sL`/`sR` are the per-channel sample streams appended so
far; the FIFOs hold exactly their unconsumed suffixes and `outs` the consumed
windows. -/
def APInv (sL sR : List ℚ) (s : APState) : Prop :=
  s.stopFlag = false ∧ s.cfg = true ∧ sL.length = sR.length ∧
  s.fifoL = sL.drop (256 * wcount sL.length) ∧
  s.fifoR = sR.drop (256 * wcount sL.length) ∧
  s.outs = windowsOf sL sR

lemma APInv_start : APInv [] [] apStart := by
  refine ⟨rfl, rfl, rfl, ?_, ?_, ?_⟩ <;>
    simp [apStart, windowsOf, wcount_lt 0 (by omega)]

lemma APInv_step (sL sR l r : List ℚ) (s : APState)
    (hinv : APInv sL sR s) (hlr : l.length = r.length) :
    APInv (sL ++ l) (sR ++ r) (onFramesAP s l r).1 := by
  obtain ⟨hstop, hcfg, hxy, hfL, hfR, houts⟩ := hinv
  by_cases hl0 : l.length = 0
  · have hr0 : r.length = 0 := by omega
    rw [List.length_eq_zero.mp hl0, List.length_eq_zero.mp hr0]
    simp only [List.append_nil]
    rw [onFramesAP, if_neg (by simp [hstop]), if_pos (by simp)]
    exact ⟨hstop, hcfg, hxy, hfL, hfR, houts⟩
  · have hmin : min l.length r.length = l.length := by omega
    have htl : l.take (min l.length r.length) = l := by
      rw [hmin]; exact l.take_length
    have htr : r.take (min l.length r.length) = r := by
      rw [hmin, hlr]; exact r.take_length
    set K := 256 * wcount sL.length with hK
    have hKle : K ≤ sL.length := (wcount_bounds sL.length).1
    have hfL2 : (appendTrunc s l r).fifoL = (sL ++ l).drop K := by
      show s.fifoL ++ l.take (min l.length r.length) = (sL ++ l).drop K
      rw [htl, hfL, List.drop_append_eq_append_drop]
      have h0 : K - sL.length = 0 := by omega
      rw [h0, List.drop_zero]
    have hfR2 : (appendTrunc s l r).fifoR = (sR ++ r).drop K := by
      show s.fifoR ++ r.take (min l.length r.length) = (sR ++ r).drop K
      rw [htr, hfR, List.drop_append_eq_append_drop]
      have h0 : K - sR.length = 0 := by omega
      rw [h0, List.drop_zero]
    have hlen2 : ((sL ++ l).drop K).length = ((sR ++ r).drop K).length := by
      simp [List.length_drop, hxy, hlr]
    have hdrain := drainFuel_spec ((sL ++ l).drop K).length
      ((sL ++ l).drop K) ((sR ++ r).drop K) hlen2 (by omega)
    have hwc2 : 256 * wcount ((sL ++ l).length)
        = K + 256 * wcount (((sL ++ l).drop K).length) := by
      rw [List.length_append, wcount_split sL.length l.length, List.length_drop,
        List.length_append, hK]
      ring
    rw [onFramesAP, if_neg (by simp [hstop]), if_neg (by omega)]
    simp only
    rw [processAvailableStereo, if_pos (by simp [appendTrunc, hstop, hcfg])]
    refine ⟨by simp [appendTrunc, hstop], by simp [appendTrunc, hcfg],
      by simp [hxy, hlr], ?_, ?_, ?_⟩
    · show (drainFuel 1024 256 (appendTrunc s l r).fifoL.length
          (appendTrunc s l r).fifoL (appendTrunc s l r).fifoR).2.1
        = (sL ++ l).drop (256 * wcount (sL ++ l).length)
      rw [hfL2, hfR2, hdrain]
      show ((sL ++ l).drop K).drop (256 * wcount ((sL ++ l).drop K).length)
        = (sL ++ l).drop (256 * wcount (sL ++ l).length)
      rw [List.drop_drop, hwc2]
    · show (drainFuel 1024 256 (appendTrunc s l r).fifoL.length
          (appendTrunc s l r).fifoL (appendTrunc s l r).fifoR).2.2
        = (sR ++ r).drop (256 * wcount (sL ++ l).length)
      rw [hfL2, hfR2, hdrain]
      show ((sR ++ r).drop K).drop (256 * wcount ((sL ++ l).drop K).length)
        = (sR ++ r).drop (256 * wcount (sL ++ l).length)
      rw [List.drop_drop, hwc2]
    · show (appendTrunc s l r).outs
          ++ (drainFuel 1024 256 (appendTrunc s l r).fifoL.length
            (appendTrunc s l r).fifoL (appendTrunc s l r).fifoR).1
        = windowsOf (sL ++ l) (sR ++ r)
      rw [hfL2, hfR2, hdrain]
      show s.outs ++ windowsOf ((sL ++ l).drop K) ((sR ++ r).drop K)
        = windowsOf (sL ++ l) (sR ++ r)
      rw [houts, windowsOf_append sL sR l r hxy hlr]

lemma APInv_run (bs : List (List ℚ × List ℚ)) :
    ∀ (sL sR : List ℚ) (s : APState),
      (∀ p ∈ bs, p.1.length = p.2.length) → APInv sL sR s →
      APInv (sL ++ (bs.map Prod.fst).join) (sR ++ (bs.map Prod.snd).join)
        (runBatches s bs) := by
  induction bs with
  | nil =>
    intro sL sR s _ hinv
    simpa [runBatches] using hinv
  | cons b rest ih =>
    intro sL sR s hb hinv
    have hstep := APInv_step sL sR b.1 b.2 s hinv (hb b (by simp))
    have hrest := ih (sL ++ b.1) (sR ++ b.2) ((onFramesAP s b.1 b.2).1)
      (fun p hp => hb p (by simp [hp])) hstep
    simpa [runBatches, List.foldl_cons, List.append_assoc] using hrest

/-- C4. Starting from empty FIFOs, for any sequence of equal-length stereo
batches, the engine emits exactly `floor((S - N)/hop) + 1` frames when the
total per-channel sample count `S` is at least `N = 1024` (0 otherwise, with
`hop = 256`), one consumed window (and one emitted band vector) per frame, and
the `t`-th consumed window is exactly samples `[t*hop, t*hop + N)` of each
channel's concatenated input stream, in arrival order. -/
theorem C4_fifoWindows (bs : List (List ℚ × List ℚ))
    (hb : ∀ p ∈ bs, p.1.length = p.2.length) :
    (runBatches apStart bs).outs.length = wcount ((bs.map Prod.fst).join).length ∧
    (∀ t, t < wcount ((bs.map Prod.fst).join).length →
      (runBatches apStart bs).outs[t]?
        = some ((((bs.map Prod.fst).join).drop (256 * t)).take 1024,
                (((bs.map Prod.snd).join).drop (256 * t)).take 1024)) := by
  have h := APInv_run bs [] [] apStart hb APInv_start
  simp only [List.nil_append] at h
  obtain ⟨-, -, -, -, -, houts⟩ := h
  rw [houts]
  constructor
  · simp [windowsOf]
  · intro t ht
    rw [windowsOf]
    rw [List.getElem?_map, List.getElem?_range ht]
    rfl

/-- C4 witness: a single batch of 1280 samples per channel yields
`(1280 - 1024)/256 + 1 = 2` windows. -/
theorem C4_fifoWindows_witness :
    (runBatches apStart [(List.replicate 1280 (1 : ℚ), List.replicate 1280 1)]).outs.length
      = wcount (([(List.replicate 1280 (1 : ℚ), List.replicate 1280 1)].map
          Prod.fst).join).length ∧
    (∀ t, t < wcount (([(List.replicate 1280 (1 : ℚ), List.replicate 1280 1)].map
          Prod.fst).join).length →
      (runBatches apStart [(List.replicate 1280 (1 : ℚ), List.replicate 1280 1)]).outs[t]?
        = some (((([(List.replicate 1280 (1 : ℚ), List.replicate 1280 1)].map
                Prod.fst).join).drop (256 * t)).take 1024,
              ((([(List.replicate 1280 (1 : ℚ), List.replicate 1280 1)].map
                Prod.snd).join).drop (256 * t)).take 1024)) :=
  C4_fifoWindows [(List.replicate 1280 (1 : ℚ), List.replicate 1280 1)]
    (by
      intro p hp
      rw [List.mem_singleton] at hp
      rw [hp])

/-! ## L/R length mismatch (C6)

`AudioProcessor::onFrames` truncates to `n = min(nL, nR)` and issues a
`qWarning` when `nL != nR`; `AdvancedAudioProcessor::onFrames` (its own
definition, AdvancedAudioProcessor.cpp lines 36-54) performs the same
truncation but issues no warning.  `AdvancedAudioProcessor` consumes with
`_macroN = 8192`-sample windows advanced by `_harmonicN/4 = 256` in
lock-step. -/

structure AdvState where
  stopFlag : Bool
  initialized : Bool
  fifoL : List ℚ
  fifoR : List ℚ
  deriving Repr, DecidableEq

/-- The FIFO-append step of `AdvancedAudioProcessor::onFrames`. -/
def advAppendTrunc (t : AdvState) (l r : List ℚ) : AdvState :=
  { t with fifoL := t.fifoL ++ l.take (min l.length r.length),
           fifoR := t.fifoR ++ r.take (min l.length r.length) }

/-- `AdvancedAudioProcessor::processMultiResolution`, FIFO evolution: while
both FIFOs hold ≥ `_macroN = 8192` samples, analyze and erase 256 from the
front of both. -/
def processMultiRes (t : AdvState) : AdvState :=
  if t.stopFlag = false ∧ t.initialized = true then
    { t with fifoL := (drainFuel 8192 256 t.fifoL.length t.fifoL t.fifoR).2.1,
             fifoR := (drainFuel 8192 256 t.fifoL.length t.fifoL t.fifoR).2.2 }
  else t

/-- `AdvancedAudioProcessor::onFrames`: guards, truncating append, process; no
warning is issued on a length mismatch (flag always `false`). -/
def onFramesAdv (t : AdvState) (l r : List ℚ) : AdvState × Bool :=
  if t.stopFlag = true then (t, false)
  else if l.length = 0 ∨ r.length = 0 then (t, false)
  else (processMultiRes (advAppendTrunc t l r), false)

/-- C6 counterexample. `AdvancedAudioProcessor::onFrames` on the mismatched
batch `nL = 2, nR = 1` truncates and continues (min-length samples appended to
each FIFO) but issues no warning, refuting "a warning is issued" for every
onFrames handler. -/
theorem C6_counterexample :
    (onFramesAdv ⟨false, true, [], []⟩ [1, 2] [5]).2 = false ∧
    (onFramesAdv ⟨false, true, [], []⟩ [1, 2] [5]).1.fifoL = [1] ∧
    (onFramesAdv ⟨false, true, [], []⟩ [1, 2] [5]).1.fifoR = [5] := by
  norm_num [onFramesAdv, advAppendTrunc, processMultiRes, drainFuel]

/-- C6 amended. For unequal positive batch lengths, both processors append
exactly `min(nL, nR)` samples to each channel's FIFO and keep processing with
the two FIFOs in lock-step (equal lengths before implies equal lengths after,
through the drain); `AudioProcessor::onFrames` issues the mismatch warning,
while `AdvancedAudioProcessor::onFrames` truncates silently. -/
theorem C6_truncation (s : APState) (t : AdvState) (l r : List ℚ)
    (hs : s.stopFlag = false) (ht : t.stopFlag = false)
    (hfs : s.fifoL.length = s.fifoR.length) (hft : t.fifoL.length = t.fifoR.length)
    (hl : l.length ≠ 0) (hr : r.length ≠ 0) (hne : l.length ≠ r.length) :
    (onFramesAP s l r).2 = true ∧
    (onFramesAdv t l r).2 = false ∧
    (appendTrunc s l r).fifoL.length = s.fifoL.length + min l.length r.length ∧
    (appendTrunc s l r).fifoR.length = s.fifoR.length + min l.length r.length ∧
    (advAppendTrunc t l r).fifoL.length = t.fifoL.length + min l.length r.length ∧
    (advAppendTrunc t l r).fifoR.length = t.fifoR.length + min l.length r.length ∧
    (onFramesAP s l r).1.fifoL.length = (onFramesAP s l r).1.fifoR.length ∧
    (onFramesAdv t l r).1.fifoL.length = (onFramesAdv t l r).1.fifoR.length := by
  have happlen : (appendTrunc s l r).fifoL.length = (appendTrunc s l r).fifoR.length := by
    show (s.fifoL ++ l.take (min l.length r.length)).length
      = (s.fifoR ++ r.take (min l.length r.length)).length
    rw [List.length_append, List.length_append, List.length_take, List.length_take]
    omega
  have hadvlen : (advAppendTrunc t l r).fifoL.length = (advAppendTrunc t l r).fifoR.length := by
    show (t.fifoL ++ l.take (min l.length r.length)).length
      = (t.fifoR ++ r.take (min l.length r.length)).length
    rw [List.length_append, List.length_append, List.length_take, List.length_take]
    omega
  refine ⟨?_, ?_, ?_, ?_, ?_, ?_, ?_, ?_⟩
  · rw [onFramesAP, if_neg (by simp [hs]), if_neg (by omega)]
    simp only
    rw [if_neg hne]
  · rw [onFramesAdv, if_neg (by simp [ht]), if_neg (by omega)]
  · show (s.fifoL ++ l.take (min l.length r.length)).length
      = s.fifoL.length + min l.length r.length
    rw [List.length_append, List.length_take]
    omega
  · show (s.fifoR ++ r.take (min l.length r.length)).length
      = s.fifoR.length + min l.length r.length
    rw [List.length_append, List.length_take]
    omega
  · show (t.fifoL ++ l.take (min l.length r.length)).length
      = t.fifoL.length + min l.length r.length
    rw [List.length_append, List.length_take]
    omega
  · show (t.fifoR ++ r.take (min l.length r.length)).length
      = t.fifoR.length + min l.length r.length
    rw [List.length_append, List.length_take]
    omega
  · rw [onFramesAP, if_neg (by simp [hs]), if_neg (by omega)]
    simp only
    rw [processAvailableStereo]
    by_cases hc : (appendTrunc s l r).stopFlag = false ∧ (appendTrunc s l r).cfg = true
    · rw [if_pos hc]
      exact drainFuel_len_eq 1024 256 (appendTrunc s l r).fifoL.length
        (appendTrunc s l r).fifoL (appendTrunc s l r).fifoR happlen
    · rw [if_neg hc]
      exact happlen
  · rw [onFramesAdv, if_neg (by simp [ht]), if_neg (by omega)]
    simp only
    rw [processMultiRes]
    by_cases hc : (advAppendTrunc t l r).stopFlag = false ∧ (advAppendTrunc t l r).initialized = true
    · rw [if_pos hc]
      exact drainFuel_len_eq 8192 256 (advAppendTrunc t l r).fifoL.length
        (advAppendTrunc t l r).fifoL (advAppendTrunc t l r).fifoR hadvlen
    · rw [if_neg hc]
      exact hadvlen

/-- C6 witness: the amended theorem at the concrete mismatched batch
`nL = 2, nR = 1` against fresh states. -/
theorem C6_truncation_witness :
    (onFramesAP apStart [1, 2] [5]).2 = true ∧
    (onFramesAdv ⟨false, true, [], []⟩ [1, 2] [5]).2 = false ∧
    (appendTrunc apStart [1, 2] [5]).fifoL.length
      = apStart.fifoL.length + min ([1, 2] : List ℚ).length ([5] : List ℚ).length ∧
    (appendTrunc apStart [1, 2] [5]).fifoR.length
      = apStart.fifoR.length + min ([1, 2] : List ℚ).length ([5] : List ℚ).length ∧
    (advAppendTrunc ⟨false, true, [], []⟩ [1, 2] [5]).fifoL.length
      = (⟨false, true, [], []⟩ : AdvState).fifoL.length
        + min ([1, 2] : List ℚ).length ([5] : List ℚ).length ∧
    (advAppendTrunc ⟨false, true, [], []⟩ [1, 2] [5]).fifoR.length
      = (⟨false, true, [], []⟩ : AdvState).fifoR.length
        + min ([1, 2] : List ℚ).length ([5] : List ℚ).length ∧
    (onFramesAP apStart [1, 2] [5]).1.fifoL.length
      = (onFramesAP apStart [1, 2] [5]).1.fifoR.length ∧
    (onFramesAdv ⟨false, true, [], []⟩ [1, 2] [5]).1.fifoL.length
      = (onFramesAdv ⟨false, true, [], []⟩ [1, 2] [5]).1.fifoR.length :=
  C6_truncation apStart ⟨false, true, [], []⟩ [1, 2] [5]
    rfl rfl rfl rfl (by norm_num) (by norm_num) (by norm_num)

end WinAudioLED
